import Mathlib

/-!
# Test_Bot: scoring, answer-key parsing and dialog steps

A shallow embedding of `src/index.js` (a Telegraf bot over MongoDB).

Conventions of the embedding.

* A JavaScript string is a list of characters (`JStr`).
* `String.prototype.toLowerCase` is embedded on the ASCII letters `A`..`Z`; the
  other characters are left as they are.  No character outside ASCII lower-cases
  to a digit, to `-` or to one of `a`..`d`, so the lines that pass the answer
  pattern are not affected by the characters left out.
* A JavaScript number that holds a score is an exact rational (`ℚ`): the
  rounding of IEEE-754 doubles is not part of the embedding.
* A `Date` is its integer time value (milliseconds).
* Store calls (`findOne`, `insertOne`, `updateOne`, ...) are total operations on
  lists of documents; a failing transport is not part of the embedding.
-/

namespace TestBot

/-- A JavaScript string. -/
abbrev JStr := List Char

/-! ## String primitives used by the handlers -/

/-- The characters removed by `String.prototype.trim`: the ECMAScript `WhiteSpace`
and `LineTerminator` code points. -/
def isTrimSpace (c : Char) : Bool :=
  let n := c.toNat
  n == 0x09 || n == 0x0A || n == 0x0B || n == 0x0C || n == 0x0D || n == 0x20 ||
  n == 0xA0 || n == 0x1680 || (0x2000 ≤ n && n ≤ 0x200A) || n == 0x2028 ||
  n == 0x2029 || n == 0x202F || n == 0x205F || n == 0x3000 || n == 0xFEFF

/-- The method `s.trim()`: drop the leading and the trailing run of trim characters. -/
def trim (s : JStr) : JStr :=
  ((s.dropWhile isTrimSpace).reverse.dropWhile isTrimSpace).reverse

/-- Lower-casing of one character (ASCII letters). -/
def lowerChar (c : Char) : Char :=
  if 65 ≤ c.toNat ∧ c.toNat ≤ 90 then Char.ofNat (c.toNat + 32) else c

/-- The method `s.toLowerCase()`, character by character. -/
def toLowerCase (s : JStr) : JStr := s.map lowerChar

/-- The call `text.split('\n')`: the pieces between line feeds; the empty string gives
one empty piece. -/
def splitLines : JStr → List JStr
  | [] => [[]]
  | c :: cs =>
    if c = '\n' then [] :: splitLines cs
    else
      match splitLines cs with
      | [] => [[c]]
      | l :: ls => (c :: l) :: ls

/-- The class `\d`: an ASCII decimal digit. -/
def isDigit (c : Char) : Bool := 48 ≤ c.toNat && c.toNat ≤ 57

/-- The class `[a-d]` under the `i` flag: `a`..`d` or `A`..`D`. -/
def isChoice (c : Char) : Bool :=
  (97 ≤ c.toNat && c.toNat ≤ 100) || (65 ≤ c.toNat && c.toNat ≤ 68)

/-- The test `/^\d+-[a-d]$/i.test(line)`: from the start a greedy non-empty run of
digits, then a hyphen, then one choice letter, then the end of the input.  The
hyphen is not a digit, so the greedy run never has to give a digit back. -/
def answerPattern (line : JStr) : Bool :=
  let digits := line.takeWhile isDigit
  let rest := line.dropWhile isDigit
  !digits.isEmpty &&
    match rest with
    | [h, c] => h == '-' && isChoice c
    | _ => false

/-- The answer key read in step 3 of `createTestScene` and in step 3 (case 2) of
`editTestScene`:
`text.split('\n').map(line => line.trim()).filter(line => /^\d+-[a-d]$/i.test(line))`. -/
def parseAnswerKey (text : JStr) : List JStr :=
  ((splitLines text).map (fun line => trim line)).filter (fun line => answerPattern line)

/-- The answers read by the answer handler: `text.split('\n')`, then
`.map(line => line.trim().toLowerCase())`, then
`.filter(line => /^\d+-[a-d]$/i.test(line))`. -/
def parseUserAnswers (text : JStr) : List JStr :=
  ((splitLines text).map (fun line => toLowerCase (trim line))).filter
    (fun line => answerPattern line)

/-! ## The pattern in the words of the specification -/

/-- The decimal digits. -/
def decimalDigits : List Char := ['0', '1', '2', '3', '4', '5', '6', '7', '8', '9']

/-- The choice letters `a`..`d` in either case. -/
def choiceLetters : List Char := ['a', 'b', 'c', 'd', 'A', 'B', 'C', 'D']

/-- A line made of one or more decimal digits, a hyphen and a single letter from
`a`..`d` or `A`..`D`. -/
def IsKeyLine (line : JStr) : Prop :=
  ∃ ds c, ds ≠ [] ∧ (∀ d ∈ ds, d ∈ decimalDigits) ∧ c ∈ choiceLetters ∧
    line = ds ++ ['-', c]

/-! ## Scoring (answer handler, lines 931-941) -/

/-- The call `xs.includes(x)` on an array of strings. -/
def includes (xs : List JStr) (x : JStr) : Bool := xs.contains x

/-- The loop that counts the correct answers:
`correctAnswers = test.answers.map(a => a.toLowerCase())`, then for each submitted
answer `if (correctAnswers.includes(answer)) correctCount++`. -/
def correctCount (userAnswers : List JStr) (answers : List JStr) : Nat :=
  let correctAnswers := answers.map (fun a => toLowerCase a)
  userAnswers.foldl
    (fun count answer => if includes correctAnswers answer then count + 1 else count) 0

/-- The score `(correctCount / test.answers.length) * 100`. -/
def scoreOf (userAnswers : List JStr) (answers : List JStr) : ℚ :=
  ((correctCount userAnswers answers : ℚ) / (answers.length : ℚ)) * 100

/-! ## Documents, session and updates -/

/-- The two values of the field `role`. -/
inductive Role where
  | STUDENT
  | TEACHER
  deriving DecidableEq, Repr

/-- A document of the `users` collection. -/
structure User where
  telegramId : Int
  firstName : Option JStr
  lastName : Option JStr
  phoneNumber : JStr
  role : Role
  createdAt : Int
  updatedAt : Int
  deriving DecidableEq, Repr

/-- A document of the `tests` collection.  The field `id` is the `_id` (an
`ObjectId`, here a number); `title` is `none` when `undefined` was stored. -/
structure Test where
  id : Nat
  title : Option JStr
  answers : List JStr
  deadline : Int
  createdBy : Int
  createdAt : Int
  updatedAt : Int
  deriving DecidableEq, Repr

/-- A document of the `testResults` collection: the five fields written by the
answer handler, and the two fields `correctAnswers` and `wrongAnswers` that the
export reads (lines 809 and 1218); a field that a document does not carry is
`none`, which is what a document gets when the two are not given. -/
structure Result where
  userId : Int
  testId : Nat
  answers : List JStr
  score : ℚ
  submittedAt : Int
  correctAnswers : Option Nat := none
  wrongAnswers : Option Nat := none
  deriving DecidableEq, Repr

/-- The three collections. -/
structure World where
  users : List User
  tests : List Test
  results : List Result
  deriving DecidableEq, Repr

/-- The value held by `ctx.session.currentTest`: the id string stored by the
`take_` action, or the whole document stored by step 1 of `editTestScene`. -/
inductive CurrentTest where
  | testId (id : Nat)
  | testDoc (test : Test)
  deriving DecidableEq, Repr

/-- The three wizard scenes registered on the stage. -/
inductive SceneName where
  | registration
  | createTest
  | editTest
  deriving DecidableEq, Repr

/-- The session object of one user: the active scene with its wizard cursor
(kept by Telegraf in `__scenes`) and the fields the program writes.  The field
`editingField` is read at lines 965-967 and written nowhere, so it is always
`undefined` and has no place here. -/
structure Session where
  scene : Option SceneName
  cursor : Nat
  firstName : Option JStr
  lastName : Option JStr
  testTitle : Option JStr
  testAnswers : Option (List JStr)
  editingTest : Option Nat
  editChoice : Option Int
  currentTest : Option CurrentTest
  awaitingTeacherId : Bool
  awaitingRemoveTeacherId : Bool
  deriving DecidableEq, Repr

/-- The session of a user who has not interacted yet. -/
def Session.fresh : Session :=
  { scene := none, cursor := 0, firstName := none, lastName := none, testTitle := none,
    testAnswers := none, editingTest := none, editChoice := none, currentTest := none,
    awaitingTeacherId := false, awaitingRemoveTeacherId := false }

/-- The contact of a message; `user_id` is optional in the Bot API. -/
structure Contact where
  user_id : Option Int
  phone_number : JStr
  deriving DecidableEq, Repr

/-- The `ctx.message` of an update: a message may carry a text, a contact or
neither, and a callback query has no message (`ctx.message` is `undefined`). -/
inductive Incoming where
  | text (text : JStr)
  | contact (contact : Contact)
  | otherMessage
  | callbackQuery (data : JStr)
  deriving DecidableEq, Repr

/-- What a handler sees of one update: the sender `ctx.from.id`, the clock
`new Date()`, the payload, and whether a required channel reports the sender as
not subscribed. -/
structure Ctx where
  fromId : Int
  now : Int
  incoming : Incoming
  notSubscribed : Bool
  deriving DecidableEq, Repr

/-- The constants read from the environment: `ADMIN_ID` (`none` when `parseInt`
gives `NaN`) and `TEACHER_IDS`. -/
structure Config where
  adminId : Option Int
  teacherIds : List Int
  deriving DecidableEq, Repr

/-- The function `isTeacher`: `TEACHER_IDS.includes(userId) || userId === ADMIN_ID`. -/
def isTeacher (cfg : Config) (userId : Int) : Bool :=
  cfg.teacherIds.contains userId || cfg.adminId == some userId

/-- The value of `ctx.message?.text`. -/
def Incoming.messageText : Incoming → Option JStr
  | .text t => some t
  | _ => none

/-- The value of `ctx.message?.contact`. -/
def Incoming.messageContact : Incoming → Option Contact
  | .contact c => some c
  | _ => none

/-- Whether `ctx.message` is defined. -/
def Incoming.hasMessage : Incoming → Bool
  | .callbackQuery _ => false
  | _ => true

/-! ## Replies and outcomes -/

/-- The messages the handlers send, one constructor for each text of the source
(with the figures it prints). -/
inductive Reply where
  | subscribeFirst
  | askFirstName
  | firstNameMustBeText
  | askLastName
  | lastNameMustBeText
  | askContact
  | pressContactButton
  | sendOwnContact
  | registered (role : Role)
  | mainMenu (role : Role)
  | genericError
  | notTeacher
  | askTitle
  | askAnswers
  | badAnswerFormat
  | askDeadline
  | badDateFormat
  | testCreated
  | testInfo (title : Option JStr) (questions : Nat) (deadline : Int)
  | testNotFound
  | editMenu
  | badChoice
  | askNewTitle
  | askNewAnswers
  | askNewDeadline
  | testUpdated
  | notOwner
  | deadlinePassed
  | alreadySubmitted
  | takePrompt (title : Option JStr) (questions : Nat) (deadline : Int)
  | countMismatch (questions : Nat) (given : Nat)
  | testResult (score : ℚ) (correct : Nat) (wrong : Nat)
  | welcome
  | testDeleted
  | askTeacherId
  | askRemoveTeacherId
  | badIdFormat
  | teacherAssigned
  | adminRoleFixed
  | teacherRemoved
  | listing
  deriving DecidableEq, Repr

/-- What one handler run leaves behind: the session, the collections and the
replies in the order they were sent. -/
structure Outcome where
  session : Session
  world : World
  replies : List Reply
  deriving DecidableEq, Repr

/-- The call `tests.findOne({ _id: new ObjectId(testId) })`. -/
def findTest (tests : List Test) (testId : Nat) : Option Test :=
  tests.find? (fun t => t.id == testId)

/-- The call `testResults.findOne({ userId, testId })`. -/
def findResult (results : List Result) (userId : Int) (testId : Nat) : Option Result :=
  results.find? (fun r => r.userId == userId && r.testId == testId)

/-! ## Taking a test (lines 850-889 and 892-1019) -/

/-- The handler `bot.action(/take_(.+)/)`. -/
def takeAction (ctx : Ctx) (testId : Nat) (s : Session) (w : World) : Outcome :=
  match findTest w.tests testId with
  | none => { session := s, world := w, replies := [.testNotFound] }
  | some test =>
    if test.deadline < ctx.now then
      { session := s, world := w, replies := [.deadlinePassed] }
    else
      match findResult w.results ctx.fromId testId with
      | some _ => { session := s, world := w, replies := [.alreadySubmitted] }
      | none =>
        { session := { s with currentTest := some (.testId testId) }, world := w,
          replies := [.takePrompt test.title test.answers.length test.deadline] }

/-- The first handler `bot.on('text')`, run on a message with text `text`.

With `currentTest` holding a whole document (left by `editTestScene`),
`new ObjectId(testId)` throws and the `catch` of line 1015 replies.  The branch
of line 965 needs `ctx.session.editingField`, which is never written, so it is
not taken. -/
def answerHandler (ctx : Ctx) (text : JStr) (s : Session) (w : World) : Outcome :=
  if s.currentTest.isNone && s.editingTest.isNone then
    { session := s, world := w, replies := [] }
  else
    match s.currentTest with
    | some (.testId testId) =>
      match findTest w.tests testId with
      | none =>
        { session := { s with currentTest := none }, world := w, replies := [.testNotFound] }
      | some test =>
        if test.deadline < ctx.now then
          { session := { s with currentTest := none }, world := w, replies := [.deadlinePassed] }
        else
          let userAnswers := parseUserAnswers text
          if userAnswers.length = 0 then
            { session := s, world := w, replies := [.badAnswerFormat] }
          else if userAnswers.length ≠ test.answers.length then
            { session := s, world := w,
              replies := [.countMismatch test.answers.length userAnswers.length] }
          else
            let count := correctCount userAnswers test.answers
            let score := scoreOf userAnswers test.answers
            { session := { s with currentTest := none },
              world := { w with results := w.results ++
                [{ userId := ctx.fromId, testId := test.id, answers := userAnswers,
                   score := score, submittedAt := ctx.now }] },
              replies := [.testResult score count (test.answers.length - count)] }
    | some (.testDoc _) => { session := s, world := w, replies := [.genericError] }
    | none => { session := s, world := w, replies := [] }

/-- One event of a user who takes tests: a press on a `take_` button or a text
message that reaches the answer handler, each with its clock value. -/
inductive TakeEvent where
  | take (testId : Nat) (now : Int)
  | text (text : JStr) (now : Int)
  deriving DecidableEq, Repr

/-- The context of an update of user `userId` at time `now`. -/
def eventCtx (userId : Int) (now : Int) (incoming : Incoming) : Ctx :=
  { fromId := userId, now := now, incoming := incoming, notSubscribed := false }

/-- The handler run for one event of user `userId`. -/
def takeStep (userId : Int) (sw : Session × World) : TakeEvent → Session × World
  | .take testId now =>
    let o := takeAction (eventCtx userId now (.callbackQuery [])) testId sw.1 sw.2
    (o.session, o.world)
  | .text text now =>
    let o := answerHandler (eventCtx userId now (.text text)) text sw.1 sw.2
    (o.session, o.world)

/-- The events of one user handled one at a time, in order, against one session. -/
def takeRun (userId : Int) (sw : Session × World) (events : List TakeEvent) : Session × World :=
  events.foldl (takeStep userId) sw

/-! ## Wizard scenes (lines 68-355)

Telegraf runs the step at `cursor` of the active scene on every update of the
user; `ctx.wizard.next()` adds one to the cursor, `ctx.scene.leave()` drops the
scene with its cursor, and `ctx.scene.enter(name)` starts the scene at cursor 0
and runs its first step on the same update.  An exception that no `try` catches
reaches `bot.catch`, which replies with the generic error; the steps below throw
only before they have written anything. -/

/-- The call `ctx.wizard.next()`. -/
def Session.next (s : Session) : Session := { s with cursor := s.cursor + 1 }

/-- The call `ctx.scene.leave()`. -/
def Session.leave (s : Session) : Session := { s with scene := none, cursor := 0 }

/-- JavaScript truthiness of an optional string: defined and not empty. -/
def truthy : Option JStr → Bool
  | some (_ :: _) => true
  | _ => false

/-- The call `users.insertOne(user)` under the unique index on `telegramId`:
`none` when the index rejects the document. -/
def insertUser (users : List User) (user : User) : Option (List User) :=
  if users.any (fun u => u.telegramId == user.telegramId) then none else some (users ++ [user])

/-- The role written at registration: `isUserTeacher ? 'TEACHER' : 'STUDENT'`. -/
def roleOf (isUserTeacher : Bool) : Role := if isUserTeacher then .TEACHER else .STUDENT

/-- Step 1 of `registrationScene` (lines 71-97). -/
def registrationStep1 (ctx : Ctx) (s : Session) (w : World) : Outcome :=
  if ctx.notSubscribed then { session := s, world := w, replies := [.subscribeFirst] }
  else { session := s.next, world := w, replies := [.askFirstName] }

/-- Step 2 of `registrationScene` (lines 98-106). -/
def registrationStep2 (ctx : Ctx) (s : Session) (w : World) : Outcome :=
  if !truthy ctx.incoming.messageText then
    { session := s, world := w, replies := [.firstNameMustBeText] }
  else
    { session := { s with firstName := ctx.incoming.messageText }.next, world := w,
      replies := [.askLastName] }

/-- Step 3 of `registrationScene` (lines 107-124). -/
def registrationStep3 (ctx : Ctx) (s : Session) (w : World) : Outcome :=
  if !truthy ctx.incoming.messageText then
    { session := s, world := w, replies := [.lastNameMustBeText] }
  else
    { session := { s with lastName := ctx.incoming.messageText }.next, world := w,
      replies := [.askContact] }

/-- Step 4 of `registrationScene` (lines 125-161). -/
def registrationStep4 (cfg : Config) (ctx : Ctx) (s : Session) (w : World) : Outcome :=
  match ctx.incoming.messageContact with
  | none => { session := s, world := w, replies := [.pressContactButton] }
  | some contact =>
    if contact.user_id ≠ some ctx.fromId then
      { session := s, world := w, replies := [.sendOwnContact] }
    else
      let isUserTeacher := isTeacher cfg ctx.fromId
      match insertUser w.users
          { telegramId := ctx.fromId, firstName := s.firstName, lastName := s.lastName,
            phoneNumber := contact.phone_number, role := roleOf isUserTeacher,
            createdAt := ctx.now, updatedAt := ctx.now } with
      | none => { session := s.leave, world := w, replies := [.genericError] }
      | some users =>
        { session := s.leave, world := { w with users := users },
          replies := [.registered (roleOf isUserTeacher), .mainMenu (roleOf isUserTeacher)] }

/-- The `_id` given to an inserted test: a number no stored test carries. -/
def freshTestId (tests : List Test) : Nat := (tests.map (fun t => t.id)).foldl max 0 + 1

/-- Step 1 of `createTestScene` (lines 167-174). -/
def createTestStep1 (cfg : Config) (ctx : Ctx) (s : Session) (w : World) : Outcome :=
  if !isTeacher cfg ctx.fromId then { session := s.leave, world := w, replies := [.notTeacher] }
  else { session := s.next, world := w, replies := [.askTitle] }

/-- Step 2 of `createTestScene` (lines 175-179).  Without a message
`ctx.message.text` throws. -/
def createTestStep2 (ctx : Ctx) (s : Session) (w : World) : Outcome :=
  if !ctx.incoming.hasMessage then { session := s, world := w, replies := [.genericError] }
  else
    { session := { s with testTitle := ctx.incoming.messageText }.next, world := w,
      replies := [.askAnswers] }

/-- Step 3 of `createTestScene` (lines 180-193).  Without a text
`ctx.message.text.split` throws. -/
def createTestStep3 (ctx : Ctx) (s : Session) (w : World) : Outcome :=
  match ctx.incoming.messageText with
  | none => { session := s, world := w, replies := [.genericError] }
  | some text =>
    let answers := parseAnswerKey text
    if answers.length = 0 then { session := s, world := w, replies := [.badAnswerFormat] }
    else
      { session := { s with testAnswers := some answers }.next, world := w,
        replies := [.askDeadline] }

/-- Step 4 of `createTestScene` (lines 194-241).  The argument `moment` stands for
`moment(text, 'DD.MM.YYYY HH:mm')`: the time value when `isValid()`, else `none`.
Without a message `ctx.message.text` throws inside the `try`.  When
`ctx.session.testAnswers` is `undefined` the test is stored without a key (the
empty key here) and `ctx.session.testAnswers.length` throws inside the `try`. -/
def createTestStep4 (moment : Option JStr → Option Int) (ctx : Ctx) (s : Session) (w : World) :
    Outcome :=
  if !ctx.incoming.hasMessage then { session := s.leave, world := w, replies := [.genericError] }
  else
    match moment ctx.incoming.messageText with
    | none => { session := s, world := w, replies := [.badDateFormat] }
    | some deadline =>
      let test : Test :=
        { id := freshTestId w.tests, title := s.testTitle, answers := s.testAnswers.getD [],
          deadline := deadline, createdBy := ctx.fromId, createdAt := ctx.now,
          updatedAt := ctx.now }
      let w1 : World := { w with tests := w.tests ++ [test] }
      match s.testAnswers with
      | none => { session := s.leave, world := w1, replies := [.testCreated, .genericError] }
      | some answers =>
        { session := s.leave, world := w1,
          replies := [.testCreated, .testInfo s.testTitle answers.length deadline,
                      .mainMenu .TEACHER] }

/-- The value of a digit of radix 10 or 16, as `parseInt` reads it. -/
def digitValue (radix : Nat) (c : Char) : Option Nat :=
  let n := c.toNat
  if 48 ≤ n ∧ n ≤ 57 then some (n - 48)
  else if radix = 16 ∧ 97 ≤ n ∧ n ≤ 102 then some (n - 87)
  else if radix = 16 ∧ 65 ≤ n ∧ n ≤ 70 then some (n - 55)
  else none

/-- The number denoted by the longest run of digits at the head of `s`, and
whether the run is not empty. -/
def readDigits (radix : Nat) : JStr → Nat → Bool → Nat × Bool
  | [], acc, seen => (acc, seen)
  | c :: cs, acc, seen =>
    match digitValue radix c with
    | some d => readDigits radix cs (acc * radix + d) true
    | none => (acc, seen)

/-- The function `parseInt(string)` without a radix argument: `none` is `NaN`.
Leading trim characters are skipped, a sign is read, a `0x` or `0X` head turns
the radix to 16, and the longest run of digits is the value. -/
def parseInt (input : Option JStr) : Option Int :=
  match input with
  | none => none
  | some text =>
    let s0 := text.dropWhile isTrimSpace
    let negative := s0.head? == some '-'
    let s1 := if s0.head? == some '-' || s0.head? == some '+' then s0.tail else s0
    let hex := match s1 with
      | '0' :: x :: _ => x == 'x' || x == 'X'
      | _ => false
    let r := if hex then readDigits 16 (s1.drop 2) 0 false else readDigits 10 s1 0 false
    if r.2 then some (if negative then -(r.1 : Int) else (r.1 : Int)) else none

/-- The object `update` handed to `$set` in step 3 of `editTestScene`: each key
is present or absent, and `title` may be present with the value `undefined`. -/
structure TestUpdate where
  title : Option (Option JStr)
  answers : Option (List JStr)
  deadline : Option Int
  updatedAt : Option Int
  deriving DecidableEq, Repr

/-- The object `{}`. -/
def TestUpdate.empty : TestUpdate :=
  { title := none, answers := none, deadline := none, updatedAt := none }

/-- The effect of `{ $set: update }` on one document: the keys present in
`update` are overwritten, the other fields stay. -/
def applySet (update : TestUpdate) (t : Test) : Test :=
  { t with
    title := update.title.getD t.title
    answers := update.answers.getD t.answers
    deadline := update.deadline.getD t.deadline
    updatedAt := update.updatedAt.getD t.updatedAt }

/-- The call `tests.updateOne({ _id }, { $set: update })`: the first document
with that `_id` is updated. -/
def updateOne (tests : List Test) (testId : Nat) (update : TestUpdate) : List Test :=
  match tests with
  | [] => []
  | t :: ts => if t.id == testId then applySet update t :: ts else t :: updateOne ts testId update

/-- Step 1 of `editTestScene` (lines 247-279).  With `editingTest` undefined,
`new ObjectId(undefined)` is a new id and no test is found. -/
def editTestStep1 (s : Session) (w : World) : Outcome :=
  match s.editingTest.bind (fun testId => findTest w.tests testId) with
  | none => { session := s.leave, world := w, replies := [.testNotFound] }
  | some test =>
    { session := { s with currentTest := some (.testDoc test) }.next, world := w,
      replies := [.editMenu] }

/-- The prompt sent by the `switch (choice)` of step 2 of `editTestScene`. -/
def editPrompt (choice : Int) : List Reply :=
  if choice = 1 then [.askNewTitle]
  else if choice = 2 then [.askNewAnswers]
  else if choice = 3 then [.askNewDeadline]
  else []

/-- Step 2 of `editTestScene` (lines 280-308).  Without a message
`ctx.message.text` throws. -/
def editTestStep2 (ctx : Ctx) (s : Session) (w : World) : Outcome :=
  if !ctx.incoming.hasMessage then { session := s, world := w, replies := [.genericError] }
  else if ctx.incoming.messageText = some "bekor".toList then
    { session := s.leave, world := w, replies := [.mainMenu .TEACHER] }
  else
    match parseInt ctx.incoming.messageText with
    | none => { session := s, world := w, replies := [.badChoice] }
    | some choice =>
      if !([1, 2, 3] : List Int).contains choice then
        { session := s, world := w, replies := [.badChoice] }
      else
        { session := { s with editChoice := some choice }.next, world := w,
          replies := editPrompt choice }

/-- What the `switch` of step 3 of `editTestScene` ends in: the object `update`
it has filled, a reply followed by `return`, or an exception. -/
inductive EditSwitch where
  | filled (update : TestUpdate)
  | returned (reply : Reply)
  | thrown
  deriving DecidableEq, Repr

/-- The `switch (choice)` of step 3 of `editTestScene` (lines 313-337), started on
`update = {}`. -/
def editSwitch (moment : Option JStr → Option Int) (choice : Option Int) (incoming : Incoming) :
    EditSwitch :=
  if choice = some 1 then
    if !incoming.hasMessage then .thrown
    else .filled { TestUpdate.empty with title := some incoming.messageText }
  else if choice = some 2 then
    match incoming.messageText with
    | none => .thrown
    | some text =>
      let answers := parseAnswerKey text
      if answers.length = 0 then .returned .badAnswerFormat
      else .filled { TestUpdate.empty with answers := some answers }
  else if choice = some 3 then
    if !incoming.hasMessage then .thrown
    else
      match moment incoming.messageText with
      | none => .returned .badDateFormat
      | some deadline => .filled { TestUpdate.empty with deadline := some deadline }
  else .filled TestUpdate.empty

/-- Step 3 of `editTestScene` (lines 309-354).  With `editingTest` undefined,
`new ObjectId(undefined)` is a new id and `updateOne` matches no test. -/
def editTestStep3 (moment : Option JStr → Option Int) (ctx : Ctx) (s : Session) (w : World) :
    Outcome :=
  match editSwitch moment s.editChoice ctx.incoming with
  | .thrown => { session := s.leave, world := w, replies := [.genericError] }
  | .returned reply => { session := s, world := w, replies := [reply] }
  | .filled update0 =>
    let update := { update0 with updatedAt := some ctx.now }
    let tests := match s.editingTest with
      | none => w.tests
      | some testId => updateOne w.tests testId update
    { session := s.leave, world := { w with tests := tests },
      replies := [.testUpdated, .mainMenu .TEACHER] }

/-- The step of the active scene at the cursor of the session; past the last
step the wizard leaves the scene. -/
def sceneStep (cfg : Config) (moment : Option JStr → Option Int) (name : SceneName) (ctx : Ctx)
    (s : Session) (w : World) : Outcome :=
  match name, s.cursor with
  | .registration, 0 => registrationStep1 ctx s w
  | .registration, 1 => registrationStep2 ctx s w
  | .registration, 2 => registrationStep3 ctx s w
  | .registration, 3 => registrationStep4 cfg ctx s w
  | .createTest, 0 => createTestStep1 cfg ctx s w
  | .createTest, 1 => createTestStep2 ctx s w
  | .createTest, 2 => createTestStep3 ctx s w
  | .createTest, 3 => createTestStep4 moment ctx s w
  | .editTest, 0 => editTestStep1 s w
  | .editTest, 1 => editTestStep2 ctx s w
  | .editTest, 2 => editTestStep3 moment ctx s w
  | _, _ => { session := s.leave, world := w, replies := [] }

/-- The call `ctx.scene.enter(name)`: the scene starts at cursor 0 and its first
step runs on the same update. -/
def enterScene (cfg : Config) (moment : Option JStr → Option Int) (name : SceneName) (ctx : Ctx)
    (s : Session) (w : World) : Outcome :=
  sceneStep cfg moment name ctx { s with scene := some name, cursor := 0 } w

/-- The handler `bot.hears('📝 Test yaratish')` (lines 403-413). -/
def createTestCommand (cfg : Config) (moment : Option JStr → Option Int) (ctx : Ctx)
    (s : Session) (w : World) : Outcome :=
  if !isTeacher cfg ctx.fromId then { session := s, world := w, replies := [.notTeacher] }
  else enterScene cfg moment .createTest ctx s w

/-- The handler `bot.action(/edit_(.+)/)` (lines 611-631). -/
def editAction (cfg : Config) (moment : Option JStr → Option Int) (ctx : Ctx) (testId : Nat)
    (s : Session) (w : World) : Outcome :=
  match findTest w.tests testId with
  | none => { session := s, world := w, replies := [.testNotFound] }
  | some test =>
    if test.createdBy ≠ ctx.fromId ∧ cfg.adminId ≠ some ctx.fromId then
      { session := s, world := w, replies := [.notOwner] }
    else enterScene cfg moment .editTest ctx { s with editingTest := some testId } w

/-! ## Aggregation (lines 533-583 and 754-847) -/

/-- A result after `$lookup` and `$unwind`: the result with one matching user. -/
structure JoinedResult where
  result : Result
  user : User
  deriving DecidableEq, Repr

/-- The stages `$match: { testId }`, `$lookup` from `users` on
`userId = telegramId` and `$unwind: '$user'`: one document for each pair of a
result of the test and a user with the result's `userId`. -/
def lookupUsers (users : List User) (results : List Result) (testId : Nat) : List JoinedResult :=
  ((results.filter (fun r => r.testId == testId)).map (fun r =>
    (users.filter (fun u => u.telegramId == r.userId)).map (fun u =>
      ({ result := r, user := u } : JoinedResult)))).flatten

/-- The stage `$sort: { score: -1 }`. -/
def sortByScore (rs : List JoinedResult) : List JoinedResult :=
  rs.mergeSort (fun a b => decide (b.result.score ≤ a.result.score))

/-- The stage `$sort: { submittedAt: -1 }`. -/
def sortBySubmittedAt (rs : List JoinedResult) : List JoinedResult :=
  rs.mergeSort (fun a b => decide (b.result.submittedAt ≤ a.result.submittedAt))

/-- The three bands of a score. -/
inductive Band where
  | excellent
  | good
  | poor
  deriving DecidableEq, Repr

/-- The band of a score: `score >= 80 ? ... : score >= 60 ? ... : ...`. -/
def bandOf (score : ℚ) : Band :=
  if score ≥ 80 then .excellent else if score ≥ 60 then .good else .poor

/-- The number printed by `x.toFixed(1)`: the multiple of one tenth nearest to
`x`, a tie going away from zero. -/
def toFixed1 (x : ℚ) : ℚ :=
  if x < 0 then -((⌊(-x) * 10 + 1 / 2⌋ : ℚ) / 10) else (⌊x * 10 + 1 / 2⌋ : ℚ) / 10

/-- The division `a / b` of two numbers: `none` is `NaN` or an infinity. -/
def divide (a b : ℚ) : Option ℚ := if b = 0 then none else some (a / b)

/-- The call `Math.max(...scores)`: the fold of `max` from `-Infinity` (`⊥`). -/
def mathMax (scores : List ℚ) : WithBot ℚ :=
  List.foldl (fun (acc : WithBot ℚ) (x : ℚ) => max acc (x : WithBot ℚ)) ⊥ scores

/-- The call `Math.min(...scores)`: the fold of `min` from `Infinity` (`⊤`). -/
def mathMin (scores : List ℚ) : WithTop ℚ :=
  List.foldl (fun (acc : WithTop ℚ) (x : ℚ) => min acc (x : WithTop ℚ)) ⊤ scores

/-- The figures of the block `STATISTIKA` as they are printed (lines 818-828). -/
structure Statistics where
  avgScore : Option ℚ
  maxScore : WithBot ℚ
  minScore : WithTop ℚ
  excellent : Nat
  good : Nat
  poor : Nat

/-- The block `STATISTIKA` (lines 818-828).  A stored score is a number, and
`x || 0` is `x` for every number `x`. -/
def statistics (results : List JoinedResult) : Statistics :=
  let scores := results.map (fun r => r.result.score)
  { avgScore := (divide (scores.foldl (fun sum score => sum + score) 0) scores.length).map toFixed1
    maxScore := (mathMax scores).map toFixed1
    minScore := (mathMin scores).map toFixed1
    excellent := (results.filter (fun r => decide (r.result.score ≥ 80))).length
    good := (results.filter
      (fun r => decide (r.result.score ≥ 60) && decide (r.result.score < 80))).length
    poor := (results.filter (fun r => decide (r.result.score < 60))).length }

/-- One line of the table `NATIJALAR` (lines 806-812); the two counts are
`result.correctAnswers || 0` and `result.wrongAnswers || 0`. -/
structure Row where
  index : Nat
  lastName : Option JStr
  firstName : Option JStr
  score : ℚ
  correctAnswers : Nat
  wrongAnswers : Nat
  status : Band
  deriving DecidableEq, Repr

/-- The rows of the table, numbered from `start + 1`. -/
def rowsFrom (start : Nat) : List JoinedResult → List Row
  | [] => []
  | r :: rs =>
    { index := start + 1, lastName := r.user.lastName, firstName := r.user.firstName,
      score := toFixed1 r.result.score, correctAnswers := r.result.correctAnswers.getD 0,
      wrongAnswers := r.result.wrongAnswers.getD 0,
      status := bandOf r.result.score } :: rowsFrom (start + 1) rs

/-- The column `To'g'ri/Noto'g'ri` of a row: the two counts with `/` between
them (before `padEnd`). -/
def Row.answersColumn (row : Row) : JStr :=
  (toString row.correctAnswers).toList ++ '/' :: (toString row.wrongAnswers).toList

/-- The document sent by the download action. -/
structure Report where
  title : Option JStr
  createdAt : Int
  questions : Nat
  participants : Nat
  rows : List Row
  statistics : Statistics

/-- The content built at lines 784-828 from the test and the joined results. -/
def buildReport (test : Test) (results : List JoinedResult) : Report :=
  { title := test.title, createdAt := test.createdAt, questions := test.answers.length,
    participants := results.length, rows := rowsFrom 0 results, statistics := statistics results }

/-- The replies of the download action. -/
inductive DownloadReply where
  | testNotFound
  | loading
  | noResultsYet
  | document (report : Report)
  | downloaded

/-- The first handler `bot.action(/download_(.+)/)` (lines 754-847); the second
one (line 1164) is never reached, the first does not call `next`. -/
def downloadAction (testId : Nat) (w : World) : List DownloadReply :=
  match findTest w.tests testId with
  | none => [.testNotFound]
  | some test =>
    let results := sortByScore (lookupUsers w.users w.results testId)
    if results.length = 0 then [.loading, .noResultsYet]
    else [.loading, .document (buildReport test results), .downloaded]

/-- One line of the results view: band, names and the score printed with one
decimal. -/
structure ViewLine where
  band : Band
  firstName : Option JStr
  lastName : Option JStr
  score : ℚ
  deriving DecidableEq, Repr

/-- What the results view answers with. -/
inductive ViewReply where
  | testNotFound
  | notOwner
  | noResults
  | list (title : Option JStr) (lines : List ViewLine)
  deriving DecidableEq, Repr

/-- The handler `bot.action(/results_(.+)/)` (lines 533-583). -/
def resultsAction (cfg : Config) (fromId : Int) (testId : Nat) (w : World) : ViewReply :=
  match findTest w.tests testId with
  | none => .testNotFound
  | some test =>
    if test.createdBy ≠ fromId ∧ cfg.adminId ≠ some fromId then .notOwner
    else
      let results := sortBySubmittedAt (lookupUsers w.users w.results testId)
      if results.length = 0 then .noResults
      else
        .list test.title (results.map (fun r =>
          { band := bandOf r.result.score, firstName := r.user.firstName,
            lastName := r.user.lastName, score := toFixed1 r.result.score }))

/-! ## Predicates and sample data used in the statements -/

/-- The conditions of the answer handler for storing a result: the session
holds the id of a test that is still stored, the deadline of the test is not
earlier than now, at least one submitted line matches the pattern, and the
number of matching lines is the length of the answer key. -/
def Accepts (ctx : Ctx) (text : JStr) (s : Session) (w : World) (test : Test) : Prop :=
  ∃ testId, s.currentTest = some (.testId testId) ∧ findTest w.tests testId = some test ∧
    ¬ test.deadline < ctx.now ∧ (parseUserAnswers text).length ≠ 0 ∧
    (parseUserAnswers text).length = test.answers.length

/-- A test with the key `1-a`, `2-c`, owned by user 7, open until time 1000. -/
def sampleTest : Test :=
  { id := 1, title := some "Algebra".toList, answers := ["1-a".toList, "2-c".toList],
    deadline := 1000, createdBy := 7, createdAt := 0, updatedAt := 0 }

/-- A store that holds `sampleTest` and nothing else. -/
def sampleWorld : World := { users := [], tests := [sampleTest], results := [] }

/-- The session of a user who has pressed the `take_` button of `sampleTest`. -/
def sampleTaking : Session := { Session.fresh with currentTest := some (.testId 1) }

/-- A text message of user 42 at time 500. -/
def sampleCtx (text : JStr) : Ctx :=
  { fromId := 42, now := 500, incoming := .text text, notSubscribed := false }

/-- The (test, user) pairs of the stored results, in store order. -/
def resultKeys (results : List Result) : List (Nat × Int) :=
  results.map (fun r => (r.testId, r.userId))

/-- The session of user `userId` does not await answers for a test the user
already has a result for. -/
def NoPendingDuplicate (userId : Int) (s : Session) (w : World) : Prop :=
  ∀ testId, s.currentTest = some (.testId testId) →
    ∀ r ∈ w.results, ¬ (r.testId = testId ∧ r.userId = userId)

/-- Take the sample test, answer it, then take it and answer it once more. -/
def sampleEvents : List TakeEvent :=
  [.take 1 100, .text "1-a\n2-b".toList 200, .take 1 300, .text "1-a\n2-c".toList 400]

/-- A well-formed answer key: not empty, every token a key line. -/
def KeyOk (key : List JStr) : Prop := key ≠ [] ∧ ∀ token ∈ key, IsKeyLine token

/-- What the two test dialogs keep true: every stored test has a well-formed
key, the key held in the session (if any) is well-formed, and the last step of
test authoring is only reached with a key in the session. -/
def DialogInv (s : Session) (w : World) : Prop :=
  (∀ t ∈ w.tests, KeyOk t.answers) ∧
  (∀ key, s.testAnswers = some key → KeyOk key) ∧
  (s.scene = some .createTest → s.cursor = 3 → s.testAnswers ≠ none)

/-- An update as the stage and the two dialog triggers see it: the menu text
that starts test authoring, a press on an `edit_` button, or any other update. -/
inductive DialogEvent where
  | authoring (ctx : Ctx)
  | editing (testId : Nat) (ctx : Ctx)
  | other (ctx : Ctx)
  deriving DecidableEq, Repr

/-- The context of a dialog event. -/
def DialogEvent.ctx : DialogEvent → Ctx
  | .authoring ctx => ctx
  | .editing _ ctx => ctx
  | .other ctx => ctx

/-- One update of a user, as far as the dialogs go: the stage middleware hands
every update to the active scene; without an active scene the two triggers start
a dialog, and any other update is left to the handlers outside the dialogs. -/
def dialogStep (cfg : Config) (moment : Option JStr → Option Int) (sw : Session × World)
    (ev : DialogEvent) : Session × World :=
  match sw.1.scene with
  | some name =>
    let o := sceneStep cfg moment name ev.ctx sw.1 sw.2
    (o.session, o.world)
  | none =>
    match ev with
    | .authoring ctx =>
      let o := createTestCommand cfg moment ctx sw.1 sw.2
      (o.session, o.world)
    | .editing testId ctx =>
      let o := editAction cfg moment ctx testId sw.1 sw.2
      (o.session, o.world)
    | .other _ => sw

/-- The updates of one user handled in order. -/
def dialogRun (cfg : Config) (moment : Option JStr → Option Int) (sw : Session × World)
    (events : List DialogEvent) : Session × World :=
  events.foldl (dialogStep cfg moment) sw

/-- A teacher (user 7) writes a test: the menu text, a title, two answer lines
with a line that is not an answer, and a deadline. -/
def sampleAuthoring : List DialogEvent :=
  [.authoring (eventCtx 7 10 (.text "📝 Test yaratish".toList)),
   .other (eventCtx 7 20 (.text "Algebra".toList)),
   .other (eventCtx 7 30 (.text "javoblar".toList)),
   .other (eventCtx 7 40 (.text "1-a\n 2-B \nxx".toList)),
   .other (eventCtx 7 50 (.text "01.01.2030 10:00".toList))]

/-- A configuration with administrator 1 and teacher 7. -/
def sampleConfig : Config := { adminId := some 1, teacherIds := [7] }

/-- An empty store. -/
def emptyWorld : World := { users := [], tests := [], results := [] }

/-- The session of a teacher in step 3 of the edit dialog for `sampleTest` with
choice `choice`. -/
def sampleEditing (choice : Int) : Session :=
  { Session.fresh with scene := some .editTest, cursor := 2, editingTest := some 1,
                       editChoice := some choice }

/-- A joined result of user `userId` with score `score`. -/
def sampleJoined (userId : Int) (score : ℚ) : JoinedResult :=
  { result := { userId := userId, testId := 1, answers := [], score := score, submittedAt := 0 },
    user := { telegramId := userId, firstName := none, lastName := none, phoneNumber := [],
              role := .STUDENT, createdAt := 0, updatedAt := 0 } }

/-- Three joined results with the scores 90, 70 and 50. -/
def sampleResults : List JoinedResult :=
  [sampleJoined 1 90, sampleJoined 2 70, sampleJoined 3 50]

/-- The texts of the `bot.hears` handlers registered before the answer handler
(lines 403-751); a message with one of these texts is handled there and does not
reach the answer handler. -/
def menuTexts : List JStr :=
  ["📝 Test yaratish".toList, "📚 Mening testlarim".toList, "📊 Testlarni boshqarish".toList,
   "📈 Natijalarni ko\x27rish".toList, "📚 Mavjud testlar".toList,
   "🎯 Mening natijalarim".toList, "👥 Foydalanuvchilarni boshqarish".toList]

/-! ## The handlers outside the scenes and the middleware chain

The bot runs, in this order: the session middleware, the stage (an active scene
takes the update and nothing after it runs), then the handlers in the order of
their registration; the first handler whose trigger matches runs, and none of
the handlers of the source calls `next`, so no later handler runs. -/

/-- The handler `bot.command('start')` (lines 362-376). -/
def startCommand (cfg : Config) (moment : Option JStr → Option Int) (ctx : Ctx) (s : Session)
    (w : World) : Outcome :=
  match w.users.find? (fun u => u.telegramId == ctx.fromId) with
  | none =>
    let o := enterScene cfg moment .registration ctx s w
    { o with replies := .welcome :: o.replies }
  | some _ =>
    { session := s, world := w,
      replies := [.welcome, .mainMenu (roleOf (isTeacher cfg ctx.fromId))] }

/-- The call `tests.deleteOne({ _id })`: the first document with that `_id` goes. -/
def deleteOne (tests : List Test) (testId : Nat) : List Test :=
  match tests with
  | [] => []
  | t :: ts => if t.id == testId then ts else t :: deleteOne ts testId

/-- The call `testResults.deleteMany({ testId })`. -/
def deleteMany (results : List Result) (testId : Nat) : List Result :=
  results.filter (fun r => !(r.testId == testId))

/-- The handler `bot.action(/delete_(.+)/)` (lines 586-608). -/
def deleteAction (cfg : Config) (ctx : Ctx) (testId : Nat) (s : Session) (w : World) : Outcome :=
  match findTest w.tests testId with
  | none => { session := s, world := w, replies := [.testNotFound] }
  | some test =>
    if test.createdBy ≠ ctx.fromId ∧ cfg.adminId ≠ some ctx.fromId then
      { session := s, world := w, replies := [.notOwner] }
    else
      { session := s,
        world := { w with tests := deleteOne w.tests testId,
                          results := deleteMany w.results testId },
        replies := [.testDeleted] }

/-- The handler `bot.action('add_teacher')` (lines 1022-1029). -/
def addTeacherAction (cfg : Config) (ctx : Ctx) (s : Session) (w : World) : Outcome :=
  if cfg.adminId ≠ some ctx.fromId then { session := s, world := w, replies := [] }
  else { session := { s with awaitingTeacherId := true }, world := w, replies := [.askTeacherId] }

/-- The handler `bot.action('remove_teacher')` (lines 1032-1039). -/
def removeTeacherAction (cfg : Config) (ctx : Ctx) (s : Session) (w : World) : Outcome :=
  if cfg.adminId ≠ some ctx.fromId then { session := s, world := w, replies := [] }
  else
    { session := { s with awaitingRemoveTeacherId := true }, world := w,
      replies := [.askRemoveTeacherId] }

/-- The call `users.updateOne({ telegramId }, { $set: { role, updatedAt } })`. -/
def setRole (users : List User) (telegramId : Int) (role : Role) (now : Int) : List User :=
  match users with
  | [] => []
  | u :: us =>
    if u.telegramId == telegramId then { u with role := role, updatedAt := now } :: us
    else u :: setRole us telegramId role now

/-- The second handler `bot.on('text')` (lines 1042-1084), the collector of the
teacher identity, as it would run on a message with text `text`. -/
def teacherHandler (cfg : Config) (ctx : Ctx) (text : JStr) (s : Session) (w : World) : Outcome :=
  if cfg.adminId ≠ some ctx.fromId then { session := s, world := w, replies := [] }
  else if s.awaitingTeacherId then
    match parseInt (some text) with
    | none => { session := s, world := w, replies := [.badIdFormat] }
    | some teacherId =>
      { session := { s with awaitingTeacherId := false },
        world := { w with users := setRole w.users teacherId .TEACHER ctx.now },
        replies := [.teacherAssigned] }
  else if s.awaitingRemoveTeacherId then
    match parseInt (some text) with
    | none => { session := s, world := w, replies := [.badIdFormat] }
    | some teacherId =>
      if cfg.adminId = some teacherId then
        { session := s, world := w, replies := [.adminRoleFixed] }
      else
        { session := { s with awaitingRemoveTeacherId := false },
          world := { w with users := setRole w.users teacherId .STUDENT ctx.now },
          replies := [.teacherRemoved] }
  else { session := s, world := w, replies := [] }

/-- The handler `bot.action(/manage_(.+)/)` (lines 1126-1161): the declaration
`const testResults = await testResults.countDocuments(...)` reads its own
binding before it is initialised, which throws inside the `try`. -/
def manageAction (testId : Nat) (s : Session) (w : World) : Outcome :=
  match findTest w.tests testId with
  | none => { session := s, world := w, replies := [.testNotFound] }
  | some _ => { session := s, world := w, replies := [.genericError] }

/-- The callback data of the buttons the bot prints, decoded: the name of the
action and, where there is one, the id of the test. -/
inductive Press where
  | results (testId : Nat)
  | delete (testId : Nat)
  | edit (testId : Nat)
  | download (testId : Nat)
  | take (testId : Nat)
  | addTeacher
  | removeTeacher
  | manage (testId : Nat)
  deriving DecidableEq, Repr

/-- The rest of `s` after the head `head`, when `s` starts with it. -/
def dropHead : JStr → JStr → Option JStr
  | [], s => some s
  | _ :: _, [] => none
  | h :: hs, c :: cs => if h = c then dropHead hs cs else none

/-- The id printed after the action name (an id is a number here, printed in
decimal). -/
def readId (s : JStr) : Option Nat :=
  if s ≠ [] ∧ s.all isDigit = true then some (s.foldl (fun n c => n * 10 + (c.toNat - 48)) 0)
  else none

/-- The action a callback data string of the bot stands for; the triggers are tried
in the order of registration. -/
def decodePress (data : JStr) : Option Press :=
  match dropHead "results_".toList data with
  | some rest => (readId rest).map .results
  | none =>
  match dropHead "delete_".toList data with
  | some rest => (readId rest).map .delete
  | none =>
  match dropHead "edit_".toList data with
  | some rest => (readId rest).map .edit
  | none =>
  match dropHead "download_".toList data with
  | some rest => (readId rest).map .download
  | none =>
  match dropHead "take_".toList data with
  | some rest => (readId rest).map .take
  | none =>
  if data = "add_teacher".toList then some .addTeacher
  else if data = "remove_teacher".toList then some .removeTeacher
  else
  match dropHead "manage_".toList data with
  | some rest => (readId rest).map .manage
  | none => none

/-- A character that can go on in the name of a command: a Latin letter, a
digit, `_`, or the `@` that opens the name of a bot. -/
def isCommandChar (c : Char) : Bool :=
  (97 ≤ c.toNat && c.toNat ≤ 122) || (65 ≤ c.toNat && c.toNat ≤ 90) || isDigit c ||
  c == '_' || c == '@'

/-- Whether the message starts with a `bot_command` entity whose text is
`/start` (the trigger of `bot.command('start')` in a private chat): the text is
`/start`, alone or followed by a character that cannot go on in a command. -/
def isStartCommand (text : JStr) : Bool :=
  match dropHead "/start".toList text with
  | some [] => true
  | some (c :: _) => !isCommandChar c
  | none => false

/-- A reply of the bot: one of the replies of the scenes and handlers, the reply
of the results view, or a reply of the download action. -/
inductive BotReply where
  | reply (r : Reply)
  | view (v : ViewReply)
  | download (d : DownloadReply)

/-- What one update leaves behind. -/
structure BotOutcome where
  session : Session
  world : World
  replies : List BotReply

/-- An outcome of a scene or handler as an outcome of the bot. -/
def Outcome.toBot (o : Outcome) : BotOutcome :=
  { session := o.session, world := o.world, replies := o.replies.map .reply }

/-- One update through the middleware chain.  An active scene takes every
update.  Otherwise a text goes to the first of: the `/start` command, the
`hears` handler of its menu text (all but the authoring one only read the store;
their listings are not detailed here), the answer handler; the answer handler
never calls `next`, so the teacher collector registered after it (line 1042) is
not run.  A button press goes to its action.  Other messages match no handler. -/
def botStep (cfg : Config) (moment : Option JStr → Option Int) (ctx : Ctx) (s : Session)
    (w : World) : BotOutcome :=
  match s.scene with
  | some name => (sceneStep cfg moment name ctx s w).toBot
  | none =>
    match ctx.incoming with
    | .text text =>
      if isStartCommand text then (startCommand cfg moment ctx s w).toBot
      else if text = "📝 Test yaratish".toList then (createTestCommand cfg moment ctx s w).toBot
      else if menuTexts.contains text then
        { session := s, world := w, replies := [.reply .listing] }
      else (answerHandler ctx text s w).toBot
    | .callbackQuery data =>
      match decodePress data with
      | some (.results testId) =>
        { session := s, world := w, replies := [.view (resultsAction cfg ctx.fromId testId w)] }
      | some (.delete testId) => (deleteAction cfg ctx testId s w).toBot
      | some (.edit testId) => (editAction cfg moment ctx testId s w).toBot
      | some (.download testId) =>
        { session := s, world := w, replies := (downloadAction testId w).map .download }
      | some (.take testId) => (takeAction ctx testId s w).toBot
      | some .addTeacher => (addTeacherAction cfg ctx s w).toBot
      | some .removeTeacher => (removeTeacherAction cfg ctx s w).toBot
      | some (.manage testId) => (manageAction testId s w).toBot
      | none => { session := s, world := w, replies := [] }
    | .contact _ => { session := s, world := w, replies := [] }
    | .otherMessage => { session := s, world := w, replies := [] }

/-- The updates of one user through the chain, in order. -/
def botRun (cfg : Config) (moment : Option JStr → Option Int) (sw : Session × World)
    (updates : List Ctx) : Session × World :=
  updates.foldl (fun acc ctx => ((botStep cfg moment ctx acc.1 acc.2).session,
    (botStep cfg moment ctx acc.1 acc.2).world)) sw

/-- A store with `sampleTest` (owned by user 7), user 42 and a result of user 42
for the test with score 50. -/
def sampleStore : World :=
  { users := [(sampleJoined 42 50).user], tests := [sampleTest],
    results := [(sampleJoined 42 50).result] }

/-- A test with the three-answer key `1-a`, `2-b`, `3-c`. -/
def sampleTest3 : Test :=
  { id := 1, title := some "Geometriya".toList,
    answers := ["1-a".toList, "2-b".toList, "3-c".toList],
    deadline := 1000, createdBy := 7, createdAt := 0, updatedAt := 0 }

/-- A store that holds `sampleTest3` and nothing else. -/
def sampleWorld3 : World := { users := [], tests := [sampleTest3], results := [] }

/-- The number of dialog kinds set in a session, among: an active wizard scene,
`currentTest`, `awaitingTeacherId`, `awaitingRemoveTeacherId`. -/
def activeKinds (s : Session) : Nat :=
  (if s.scene.isSome then 1 else 0) + (if s.currentTest.isSome then 1 else 0) +
  (if s.awaitingTeacherId then 1 else 0) + (if s.awaitingRemoveTeacherId then 1 else 0)

/-- The administrator (user 1) presses the two teacher buttons one after the
other. -/
def sampleAdminPresses : List Ctx :=
  [eventCtx 1 10 (.callbackQuery "add_teacher".toList),
   eventCtx 1 20 (.callbackQuery "remove_teacher".toList)]

/-- A teacher (user 7) presses the `take_` button of the sample test and then
sends the menu text that starts test authoring. -/
def sampleTakeThenAuthor : List Ctx :=
  [eventCtx 7 10 (.callbackQuery "take_1".toList),
   eventCtx 7 20 (.text "📝 Test yaratish".toList)]

/-- A session in step 2 of test authoring that still awaits the answers of
test 1. -/
def sampleAuthoringWhileTaking : Session :=
  { Session.fresh with scene := some .createTest, cursor := 1, currentTest := some (.testId 1) }

/-- A teacher (user 7) edits the title of the sample test: the `edit_` button,
the choice 1 and the new title. -/
def sampleEditRun : List Ctx :=
  [eventCtx 7 10 (.callbackQuery "edit_1".toList),
   eventCtx 7 20 (.text "1".toList),
   eventCtx 7 30 (.text "Yangi mavzu".toList)]

/-- A teacher (user 7) opens the edit dialog of the sample test and cancels it. -/
def sampleEditCancel : List Ctx :=
  [eventCtx 7 10 (.callbackQuery "edit_1".toList),
   eventCtx 7 20 (.text "bekor".toList)]

/-- A teacher (user 7) writes a test from the menu text to the deadline. -/
def sampleAuthoringRun : List Ctx :=
  [eventCtx 7 10 (.text "📝 Test yaratish".toList),
   eventCtx 7 20 (.text "Algebra".toList),
   eventCtx 7 40 (.text "1-a\n2-b".toList),
   eventCtx 7 50 (.text "01.01.2030 10:00".toList)]

/-- The session of a teacher in step 2 of test authoring (the title step). -/
def sampleTitleStep : Session := { Session.fresh with scene := some .createTest, cursor := 1 }

/-- The session of the administrator after the `add_teacher` button. -/
def sampleAwaitingTeacher : Session := { Session.fresh with awaitingTeacherId := true }

/-- A store with user 42 (role `STUDENT`) and no test. -/
def sampleUsers : World := { users := [(sampleJoined 42 50).user], tests := [], results := [] }

/-- A new user (user 5) registers: the command, the two names and the own
contact. -/
def sampleRegistrationRun : List Ctx :=
  [eventCtx 5 10 (.text "/start".toList),
   eventCtx 5 20 (.text "Ali".toList),
   eventCtx 5 30 (.text "Valiyev".toList),
   eventCtx 5 40 (.contact { user_id := some 5, phone_number := "+998901234567".toList })]

/-- The results carry neither `correctAnswers` nor `wrongAnswers`. -/
def NoCounts (results : List Result) : Prop :=
  ∀ r ∈ results, r.correctAnswers = none ∧ r.wrongAnswers = none

/-- A store with `sampleTest`, the registered user 42 and no result yet. -/
def sampleTakingStore : World :=
  { users := [(sampleJoined 42 50).user], tests := [sampleTest], results := [] }

/-- User 42 presses the `take_` button of the sample test and sends two answers,
the first right and the second wrong. -/
def sampleSubmission : List Ctx :=
  [eventCtx 42 100 (.callbackQuery "take_1".toList),
   eventCtx 42 200 (.text "1-a\n2-b".toList)]

/-- The result of `sampleSubmission` as the answer handler stores it, joined with
user 42. -/
def sampleSubmitted : JoinedResult :=
  { result := { userId := 42, testId := 1, answers := ["1-a".toList, "2-b".toList],
                score := scoreOf ["1-a".toList, "2-b".toList] sampleTest.answers,
                submittedAt := 200 },
    user := (sampleJoined 42 50).user }

/-! # Theorems -/

/-! ## Characters and the answer pattern -/

theorem char_eq_ofNat {c : Char} {n : Nat} (h : c.toNat = n) : c = Char.ofNat n := by
  rw [← h, Char.ofNat_toNat]

theorem isDigit_iff (c : Char) : isDigit c = true ↔ c ∈ decimalDigits := by
  constructor
  · intro h
    simp only [isDigit, Bool.and_eq_true, decide_eq_true_eq] at h
    have : c.toNat = 48 ∨ c.toNat = 49 ∨ c.toNat = 50 ∨ c.toNat = 51 ∨ c.toNat = 52 ∨
        c.toNat = 53 ∨ c.toNat = 54 ∨ c.toNat = 55 ∨ c.toNat = 56 ∨ c.toNat = 57 := by omega
    rcases this with h | h | h | h | h | h | h | h | h | h <;>
      (rw [char_eq_ofNat h]; decide)
  · intro h
    simp only [decimalDigits, List.mem_cons, List.mem_singleton, List.not_mem_nil, or_false] at h
    rcases h with h | h | h | h | h | h | h | h | h | h <;> (subst h; decide)

theorem isChoice_iff (c : Char) : isChoice c = true ↔ c ∈ choiceLetters := by
  constructor
  · intro h
    simp only [isChoice, Bool.and_eq_true, Bool.or_eq_true, decide_eq_true_eq] at h
    have : c.toNat = 97 ∨ c.toNat = 98 ∨ c.toNat = 99 ∨ c.toNat = 100 ∨ c.toNat = 65 ∨
        c.toNat = 66 ∨ c.toNat = 67 ∨ c.toNat = 68 := by omega
    rcases this with h | h | h | h | h | h | h | h <;>
      (rw [char_eq_ofNat h]; decide)
  · intro h
    simp only [choiceLetters, List.mem_cons, List.mem_singleton, List.not_mem_nil, or_false] at h
    rcases h with h | h | h | h | h | h | h | h <;> (subst h; decide)

theorem answerPattern_of_parts (ds : JStr) (c : Char) (hne : ds ≠ [])
    (hds : ∀ d ∈ ds, isDigit d = true) (hc : isChoice c = true) :
    answerPattern (ds ++ ['-', c]) = true := by
  have hhy : ¬ (isDigit '-' = true) := by decide
  have htake : (ds ++ ['-', c]).takeWhile isDigit = ds := by
    rw [List.takeWhile_append_of_pos hds, List.takeWhile_cons_of_neg hhy, List.append_nil]
  have hdrop : (ds ++ ['-', c]).dropWhile isDigit = ['-', c] := by
    rw [List.dropWhile_append_of_pos hds, List.dropWhile_cons_of_neg hhy]
  unfold answerPattern
  simp only [htake, hdrop]
  cases ds with
  | nil => exact absurd rfl hne
  | cons d ds => simp [hc]

theorem parts_of_answerPattern (line : JStr) (h : answerPattern line = true) :
    ∃ ds c, ds ≠ [] ∧ (∀ d ∈ ds, isDigit d = true) ∧ isChoice c = true ∧
      line = ds ++ ['-', c] := by
  unfold answerPattern at h
  simp only [Bool.and_eq_true, Bool.not_eq_true', List.isEmpty_eq_false] at h
  obtain ⟨hne, hrest⟩ := h
  have hsplit := List.takeWhile_append_dropWhile isDigit line
  generalize hr : line.dropWhile isDigit = rest at hrest hsplit
  match rest, hrest with
  | [x, c], hrest =>
    simp only [Bool.and_eq_true, beq_iff_eq] at hrest
    refine ⟨line.takeWhile isDigit, c, ?_, fun d hd => List.mem_takeWhile_imp hd, hrest.2, ?_⟩
    · intro h0
      simp [h0] at hne
    · rw [← hrest.1]
      exact hsplit.symm

/-- The pattern of the source accepts the lines the specification describes. -/
theorem answerPattern_iff (line : JStr) : answerPattern line = true ↔ IsKeyLine line := by
  constructor
  · intro h
    obtain ⟨ds, c, hne, hds, hc, hl⟩ := parts_of_answerPattern line h
    exact ⟨ds, c, hne, fun d hd => (isDigit_iff d).1 (hds d hd), (isChoice_iff c).1 hc, hl⟩
  · rintro ⟨ds, c, hne, hds, hc, rfl⟩
    exact answerPattern_of_parts ds c hne (fun d hd => (isDigit_iff d).2 (hds d hd))
      ((isChoice_iff c).2 hc)

/-! ## Lines and trimming -/

theorem splitLines_ne_nil (text : JStr) : splitLines text ≠ [] := by
  cases text with
  | nil => simp [splitLines]
  | cons c cs =>
    unfold splitLines
    split
    · simp
    · split <;> simp

theorem intercalate_cons_cons (sep a b : JStr) (rest : List JStr) :
    List.intercalate sep (a :: b :: rest) = a ++ sep ++ List.intercalate sep (b :: rest) := by
  simp [List.intercalate, List.intersperse]

theorem splitLines_intercalate (text : JStr) :
    List.intercalate ['\n'] (splitLines text) = text := by
  induction text with
  | nil => simp [splitLines, List.intercalate]
  | cons c cs ih =>
    unfold splitLines
    by_cases hc : c = '\n'
    · rw [if_pos hc]
      obtain ⟨l, ls, hl⟩ := List.exists_cons_of_ne_nil (splitLines_ne_nil cs)
      rw [hl] at ih ⊢
      rw [intercalate_cons_cons, ih, hc]
      rfl
    · rw [if_neg hc]
      obtain ⟨l, ls, hl⟩ := List.exists_cons_of_ne_nil (splitLines_ne_nil cs)
      rw [hl] at ih ⊢
      simp only
      cases ls with
      | nil =>
        simp only [List.intercalate, List.intersperse, List.flatten, List.append_nil] at ih ⊢
        rw [ih]
      | cons l2 ls =>
        rw [intercalate_cons_cons] at ih ⊢
        rw [← ih]
        simp

theorem splitLines_no_newline (text : JStr) : ∀ line ∈ splitLines text, '\n' ∉ line := by
  induction text with
  | nil => simp [splitLines]
  | cons c cs ih =>
    unfold splitLines
    by_cases hc : c = '\n'
    · rw [if_pos hc]
      intro line hline
      rcases List.mem_cons.1 hline with h | h
      · simp [h]
      · exact ih line h
    · rw [if_neg hc]
      obtain ⟨l, ls, hl⟩ := List.exists_cons_of_ne_nil (splitLines_ne_nil cs)
      rw [hl] at ih ⊢
      intro line hline
      rcases List.mem_cons.1 hline with h | h
      · subst h
        intro hmem
        rcases List.mem_cons.1 hmem with h1 | h1
        · exact hc h1.symm
        · exact ih l (List.mem_cons_self _ _) h1
      · exact ih line (List.mem_cons_of_mem _ h)

theorem trim_eq_rdropWhile (s : JStr) :
    trim s = List.rdropWhile isTrimSpace (s.dropWhile isTrimSpace) := rfl

theorem rdropWhile_append_rtakeWhile (p : Char → Bool) (l : JStr) :
    List.rdropWhile p l ++ List.rtakeWhile p l = l := by
  unfold List.rdropWhile List.rtakeWhile
  rw [← List.reverse_append, List.takeWhile_append_dropWhile, List.reverse_reverse]

theorem trim_head_not_space (line : JStr) (c : Char) (h : (trim line).head? = some c) :
    isTrimSpace c = false := by
  have hpre : List.rdropWhile isTrimSpace (line.dropWhile isTrimSpace) <+:
      line.dropWhile isTrimSpace := List.rdropWhile_prefix _ _
  rw [trim_eq_rdropWhile] at h
  obtain ⟨t, ht⟩ := hpre
  have hd := List.head?_dropWhile_not isTrimSpace line
  rw [← ht] at hd
  cases hr : List.rdropWhile isTrimSpace (line.dropWhile isTrimSpace) with
  | nil => rw [hr] at h; simp at h
  | cons x xs =>
    rw [hr] at h hd
    simp only [List.head?_cons, Option.some.injEq] at h
    subst h
    simpa using hd

theorem trim_last_not_space (line : JStr) (c : Char) (h : (trim line).getLast? = some c) :
    isTrimSpace c = false := by
  rw [trim_eq_rdropWhile] at h
  have hne : List.rdropWhile isTrimSpace (line.dropWhile isTrimSpace) ≠ [] := by
    intro h0
    rw [h0] at h
    simp at h
  have hl := List.rdropWhile_last_not isTrimSpace (line.dropWhile isTrimSpace) hne
  rw [List.getLast?_eq_getLast _ hne] at h
  simp only [Option.some.injEq] at h
  rw [h] at hl
  simpa using hl

theorem trim_parts (line : JStr) :
    ∃ pre post, line = pre ++ trim line ++ post ∧
      (∀ c ∈ pre, isTrimSpace c = true) ∧ (∀ c ∈ post, isTrimSpace c = true) := by
  refine ⟨line.takeWhile isTrimSpace,
    List.rtakeWhile isTrimSpace (line.dropWhile isTrimSpace), ?_, ?_, ?_⟩
  · rw [trim_eq_rdropWhile, List.append_assoc, rdropWhile_append_rtakeWhile,
      List.takeWhile_append_dropWhile]
  · intro c hc
    exact List.mem_takeWhile_imp hc
  · intro c hc
    exact List.mem_rtakeWhile_imp hc

/-! ## C4: answer-key parsing -/

open scoped Classical in
/-- C4.  The answer key parsed in authoring step 3 and editing step 3 (choice 2)
is exactly the sub-list, in the original order, of the trimmed lines of the text
that are made of one or more decimal digits, a hyphen and one letter of `a`..`d`
or `A`..`D`.  The lines are the pieces of the text between line feeds (joined
with line feeds they give the text back, and no piece holds a line feed); a
trimmed line is the line without its leading and trailing run of white space.
The parser is a function of the text, so the same text always gives the same
token sequence. -/
theorem parseAnswerKey_exact (text : JStr) :
    List.intercalate ['\n'] (splitLines text) = text ∧
    (∀ line ∈ splitLines text, '\n' ∉ line) ∧
    (∀ line : JStr, ∃ pre post, line = pre ++ trim line ++ post ∧
      (∀ c ∈ pre, isTrimSpace c = true) ∧ (∀ c ∈ post, isTrimSpace c = true) ∧
      (∀ c, (trim line).head? = some c → isTrimSpace c = false) ∧
      (∀ c, (trim line).getLast? = some c → isTrimSpace c = false)) ∧
    parseAnswerKey text =
      ((splitLines text).map trim).filter (fun line => decide (IsKeyLine line)) ∧
    List.Sublist (parseAnswerKey text) ((splitLines text).map trim) ∧
    (∀ line, line ∈ parseAnswerKey text ↔ line ∈ (splitLines text).map trim ∧ IsKeyLine line) := by
  refine ⟨splitLines_intercalate text, splitLines_no_newline text, ?_, ?_, ?_, ?_⟩
  · intro line
    obtain ⟨pre, post, h1, h2, h3⟩ := trim_parts line
    exact ⟨pre, post, h1, h2, h3, trim_head_not_space line, trim_last_not_space line⟩
  · unfold parseAnswerKey
    apply List.filter_congr
    intro line _
    by_cases h : IsKeyLine line
    · simp [h, (answerPattern_iff line).2 h]
    · have : answerPattern line = false := by
        cases hp : answerPattern line with
        | false => rfl
        | true => exact absurd ((answerPattern_iff line).1 hp) h
      simp [h, this]
  · exact List.filter_sublist _
  · intro line
    unfold parseAnswerKey
    rw [List.mem_filter, answerPattern_iff]

/-! ## Lower case -/

theorem toNat_ofNat_small (n : Nat) (h : n < 55296) : (Char.ofNat n).toNat = n := by
  have hv : n.isValidChar := Or.inl h
  unfold Char.ofNat
  rw [dif_pos hv]
  simp [Char.ofNatAux, Char.toNat, UInt32.toNat, BitVec.toNat_ofNatLt]

theorem lowerChar_toNat (c : Char) :
    (lowerChar c).toNat = if 65 ≤ c.toNat ∧ c.toNat ≤ 90 then c.toNat + 32 else c.toNat := by
  unfold lowerChar
  split
  · next h => exact toNat_ofNat_small _ (by omega)
  · rfl

theorem char_ext_toNat {a b : Char} (h : a.toNat = b.toNat) : a = b := by
  rw [← Char.ofNat_toNat a, ← Char.ofNat_toNat b, h]

theorem lowerChar_idem (c : Char) : lowerChar (lowerChar c) = lowerChar c := by
  apply char_ext_toNat
  rw [lowerChar_toNat (lowerChar c), lowerChar_toNat c]
  split_ifs <;> omega

theorem toLowerCase_idem (s : JStr) : toLowerCase (toLowerCase s) = toLowerCase s := by
  simp [toLowerCase, Function.comp_def, lowerChar_idem]

theorem lowerChar_eq_newline (c : Char) : lowerChar c = '\n' ↔ c = '\n' := by
  constructor
  · intro h
    have h1 : (lowerChar c).toNat = 10 := by rw [h]; rfl
    rw [lowerChar_toNat] at h1
    apply char_ext_toNat
    split_ifs at h1 with h2
    · omega
    · rw [h1]; rfl
  · intro h
    subst h
    rfl

theorem isTrimSpace_lowerChar (c : Char) : isTrimSpace (lowerChar c) = isTrimSpace c := by
  unfold isTrimSpace
  simp only [lowerChar_toNat]
  split_ifs with h
  · have e1 : ∀ k : Nat, k ≠ c.toNat + 32 → ((c.toNat + 32 == k) = false) := by
      intro k hk
      simp only [beq_eq_false_iff_ne, ne_eq]
      omega
    have e2 : ∀ k : Nat, k ≠ c.toNat → ((c.toNat == k) = false) := by
      intro k hk
      simp only [beq_eq_false_iff_ne, ne_eq]
      omega
    have f2 : decide (8192 ≤ c.toNat + 32) = false := by simp; omega
    have f3 : decide (8192 ≤ c.toNat) = false := by simp; omega
    rw [e1 9 (by omega), e1 10 (by omega), e1 11 (by omega), e1 12 (by omega), e1 13 (by omega),
      e1 32 (by omega), e1 160 (by omega), e1 5760 (by omega), e1 8232 (by omega),
      e1 8233 (by omega), e1 8239 (by omega), e1 8287 (by omega), e1 12288 (by omega),
      e1 65279 (by omega), e2 9 (by omega), e2 10 (by omega), e2 11 (by omega), e2 12 (by omega),
      e2 13 (by omega), e2 32 (by omega), e2 160 (by omega), e2 5760 (by omega),
      e2 8232 (by omega), e2 8233 (by omega), e2 8239 (by omega), e2 8287 (by omega),
      e2 12288 (by omega), e2 65279 (by omega), f2, f3]
    rfl
  · rfl

theorem splitLines_toLowerCase (text : JStr) :
    splitLines (toLowerCase text) = (splitLines text).map toLowerCase := by
  induction text with
  | nil => rfl
  | cons c cs ih =>
    have ih2 : splitLines (List.map lowerChar cs) = (splitLines cs).map toLowerCase := ih
    simp only [toLowerCase, List.map_cons]
    unfold splitLines
    by_cases hc : c = '\n'
    · rw [if_pos hc, if_pos ((lowerChar_eq_newline c).2 hc), ih2]
      rfl
    · rw [if_neg hc, if_neg (fun h => hc ((lowerChar_eq_newline c).1 h)), ih2]
      cases splitLines cs with
      | nil => rfl
      | cons l ls => rfl

theorem dropWhile_space_lower (l : JStr) :
    (l.map lowerChar).dropWhile isTrimSpace = (l.dropWhile isTrimSpace).map lowerChar := by
  induction l with
  | nil => rfl
  | cons c cs ih =>
    simp only [List.map_cons, List.dropWhile_cons, isTrimSpace_lowerChar]
    split
    · exact ih
    · rfl

theorem trim_toLowerCase (l : JStr) : trim (toLowerCase l) = toLowerCase (trim l) := by
  unfold trim toLowerCase
  rw [dropWhile_space_lower, ← List.map_reverse, dropWhile_space_lower, List.map_reverse]

/-- The submitted answers depend on the text through its lower-cased form only. -/
theorem parseUserAnswers_lower (text : JStr) :
    parseUserAnswers text =
      ((splitLines (toLowerCase text)).map trim).filter (fun line => answerPattern line) := by
  unfold parseUserAnswers
  rw [splitLines_toLowerCase, List.map_map]
  congr 1
  apply List.map_congr_left
  intro l _
  exact (trim_toLowerCase l).symm

theorem parseUserAnswers_fixed (text : JStr) :
    ∀ token ∈ parseUserAnswers text, toLowerCase token = token := by
  intro token h
  unfold parseUserAnswers at h
  obtain ⟨hm, _⟩ := List.mem_filter.1 h
  obtain ⟨l, _, rfl⟩ := List.mem_map.1 hm
  exact toLowerCase_idem _

/-! ## The correct count -/

theorem foldl_count (p : JStr → Bool) (xs : List JStr) (n : Nat) :
    xs.foldl (fun count answer => if p answer then count + 1 else count) n = n + xs.countP p := by
  induction xs generalizing n with
  | nil => simp
  | cons x xs ih =>
    simp only [List.foldl_cons, List.countP_cons]
    rw [ih]
    split <;> omega

theorem correctCount_eq_countP (userAnswers answers : List JStr) :
    correctCount userAnswers answers =
      userAnswers.countP (fun a => decide (a ∈ answers.map toLowerCase)) := by
  unfold correctCount
  simp only []
  rw [foldl_count, Nat.zero_add]
  apply List.countP_congr
  intro a _
  simp [includes]

theorem correctCount_perm {S S' K K' : List JStr} (hS : S'.Perm S) (hK : K'.Perm K) :
    correctCount S' K' = correctCount S K := by
  rw [correctCount_eq_countP, correctCount_eq_countP, hS.countP_eq]
  apply List.countP_congr
  intro a _
  simp only [decide_eq_true_eq]
  exact (hK.map toLowerCase).mem_iff

theorem scoreOf_perm {S S' K K' : List JStr} (hS : S'.Perm S) (hK : K'.Perm K) :
    scoreOf S' K' = scoreOf S K := by
  unfold scoreOf
  rw [correctCount_perm hS hK, hK.length_eq]

theorem correctCount_le (S K : List JStr) : correctCount S K ≤ S.length := by
  rw [correctCount_eq_countP]
  exact List.countP_le_length _

/-! ## The answer handler -/

/-- The outcome of the answer handler when it accepts a submission. -/
theorem answerHandler_accept (ctx : Ctx) (text : JStr) (s : Session) (w : World) (test : Test)
    (h : Accepts ctx text s w test) :
    answerHandler ctx text s w =
      { session := { s with currentTest := none },
        world := { w with results := w.results ++
          [{ userId := ctx.fromId, testId := test.id, answers := parseUserAnswers text,
             score := scoreOf (parseUserAnswers text) test.answers, submittedAt := ctx.now }] },
        replies := [.testResult (scoreOf (parseUserAnswers text) test.answers)
          (correctCount (parseUserAnswers text) test.answers)
          (test.answers.length - correctCount (parseUserAnswers text) test.answers)] } := by
  obtain ⟨testId, hcur, hfind, hdl, hne, hlen⟩ := h
  unfold answerHandler
  simp only [hcur, hfind, Option.isNone_some, Bool.false_and, Bool.false_eq_true, if_false]
  rw [if_neg hdl, if_neg hne, if_neg (by simpa using hlen)]

/-- The outcome of the answer handler when it does not accept: the store is as
before and the reply is not a test result. -/
theorem answerHandler_reject (ctx : Ctx) (text : JStr) (s : Session) (w : World)
    (h : ¬ ∃ test, Accepts ctx text s w test) :
    (answerHandler ctx text s w).world = w ∧
    (∀ score correct wrong,
      Reply.testResult score correct wrong ∉ (answerHandler ctx text s w).replies) := by
  unfold answerHandler
  split
  · simp
  · split
    · next testId hcur =>
      split
      · simp
      · next test hfind =>
        split
        · simp
        · next hdl =>
          simp only []
          split
          · simp
          · next hne =>
            split
            · simp
            · next hlen =>
              exfalso
              exact h ⟨test, testId, hcur, hfind, hdl, hne, by simpa using hlen⟩
    · simp
    · simp

/-! ## C1: the score of an accepted submission -/

/-- C1.  When the answer handler accepts a submission (parsed tokens `S`, stored
key `K`, with `|S| = |K| > 0`), the score of the stored result is
`100 * c / |K|`, where `c` counts the positions of `S` whose lower-cased token
occurs among the lower-cased key tokens (membership, not position); the score is
the same for every permutation of `S` and of `K`. -/
theorem accepted_score_membership (ctx : Ctx) (text : JStr) (s : Session) (w : World)
    (test : Test) (h : Accepts ctx text s w test) :
    ∃ r, (answerHandler ctx text s w).world.results = w.results ++ [r] ∧
      (parseUserAnswers text).length = test.answers.length ∧ 0 < test.answers.length ∧
      r.score = 100 * ((parseUserAnswers text).countP
          (fun token => decide (toLowerCase token ∈ test.answers.map toLowerCase)) : ℚ) /
        (test.answers.length : ℚ) ∧
      r.score = scoreOf (parseUserAnswers text) test.answers ∧
      ∀ S K, S.Perm (parseUserAnswers text) → K.Perm test.answers → scoreOf S K = r.score := by
  refine ⟨_, by rw [answerHandler_accept ctx text s w test h], ?_, ?_, ?_, rfl, ?_⟩
  · obtain ⟨_, _, _, _, _, hlen⟩ := h
    exact hlen
  · obtain ⟨_, _, _, _, hne, hlen⟩ := h
    omega
  · show scoreOf (parseUserAnswers text) test.answers = _
    unfold scoreOf
    rw [correctCount_eq_countP]
    have hc : (parseUserAnswers text).countP
          (fun token => decide (token ∈ test.answers.map toLowerCase)) =
        (parseUserAnswers text).countP
          (fun token => decide (toLowerCase token ∈ test.answers.map toLowerCase)) := by
      apply List.countP_congr
      intro token htoken
      rw [parseUserAnswers_fixed text token htoken]
    rw [hc]
    ring
  · intro S K hS hK
    exact scoreOf_perm hS hK

/-- C1, witness.  The submission `1-a`, `2-b` against the key `1-a`, `2-c` is
accepted and scores 50. -/
theorem accepted_score_membership_witness :
    Accepts (sampleCtx "1-a\n2-b".toList) "1-a\n2-b".toList sampleTaking sampleWorld sampleTest ∧
    ∃ r, (answerHandler (sampleCtx "1-a\n2-b".toList) "1-a\n2-b".toList sampleTaking
        sampleWorld).world.results = sampleWorld.results ++ [r] ∧ r.score = 50 := by
  have hacc : Accepts (sampleCtx "1-a\n2-b".toList) "1-a\n2-b".toList sampleTaking sampleWorld
      sampleTest := ⟨1, rfl, rfl, by decide, by decide, by decide⟩
  obtain ⟨r, hr, _, _, hs, _, _⟩ :=
    accepted_score_membership (sampleCtx "1-a\n2-b".toList) "1-a\n2-b".toList sampleTaking
      sampleWorld sampleTest hacc
  refine ⟨hacc, r, hr, ?_⟩
  rw [hs]
  have hc : (parseUserAnswers "1-a\n2-b".toList).countP
      (fun token => decide (toLowerCase token ∈ sampleTest.answers.map toLowerCase)) = 1 := by
    decide
  have hl : sampleTest.answers.length = 2 := rfl
  rw [hc, hl]
  norm_num

/-! ## C2: case-insensitive scoring -/

/-- C2.  Two submitted texts that differ only in the case of letters, and two
keys whose tokens differ only in the case of letters, give the same parsed
tokens (so the same token count), the same correct count and the same score;
the answer handler does the same on both texts. -/
theorem scoring_case_insensitive (text text2 : JStr) (K K2 : List JStr)
    (htext : toLowerCase text = toLowerCase text2)
    (hkey : K.map toLowerCase = K2.map toLowerCase) :
    parseUserAnswers text = parseUserAnswers text2 ∧
    (parseUserAnswers text).length = (parseUserAnswers text2).length ∧
    correctCount (parseUserAnswers text) K = correctCount (parseUserAnswers text2) K2 ∧
    scoreOf (parseUserAnswers text) K = scoreOf (parseUserAnswers text2) K2 ∧
    (∀ ctx s w, answerHandler ctx text s w = answerHandler ctx text2 s w) := by
  have hp : parseUserAnswers text = parseUserAnswers text2 := by
    rw [parseUserAnswers_lower, parseUserAnswers_lower, htext]
  have hc : correctCount (parseUserAnswers text) K = correctCount (parseUserAnswers text2) K2 := by
    rw [hp]
    unfold correctCount
    simp only [hkey]
  have hl : K.length = K2.length := by
    have := congrArg List.length hkey
    simpa using this
  refine ⟨hp, by rw [hp], hc, ?_, ?_⟩
  · unfold scoreOf
    rw [hc, hl]
  · intro ctx s w
    unfold answerHandler
    rw [hp]

/-- C2, witness.  The submission `1-A`, `2-B` is a case variant of `1-a`, `2-b`
and scores 100 against the key `1-a`, `2-b`. -/
theorem scoring_case_insensitive_witness :
    scoreOf (parseUserAnswers "1-A\n2-B".toList) ["1-a".toList, "2-b".toList] =
      scoreOf (parseUserAnswers "1-a\n2-b".toList) ["1-A".toList, "2-B".toList] ∧
    scoreOf (parseUserAnswers "1-A\n2-B".toList) ["1-a".toList, "2-b".toList] = 100 := by
  have h := scoring_case_insensitive "1-A\n2-B".toList "1-a\n2-b".toList
    ["1-a".toList, "2-b".toList] ["1-A".toList, "2-B".toList] (by decide) (by decide)
  refine ⟨h.2.2.2.1, ?_⟩
  have hc : correctCount (parseUserAnswers "1-A\n2-B".toList) ["1-a".toList, "2-b".toList] = 2 := by
    decide
  unfold scoreOf
  rw [hc]
  norm_num

/-! ## C3: when the answer handler stores a result -/

/-- C3.  A text message handled by the answer handler stores a result exactly
when the session holds the id of a test (as the `take_` action stores it) that is
still stored, the deadline of the test is not earlier than now, at least one
submitted line matches the pattern and the number of matching lines is the
length of the key.  In that case one result is appended; in every other case the
store is unchanged and no score is reported, and a count mismatch is answered
with the two counts only, the session left as it was.  When `currentTest` holds
a whole document (left there by the edit dialog) no test id can be read from it:
the handler answers with the generic error and changes nothing.  The menu texts,
which are handled before the answer handler, hold no matching line. -/
theorem answerHandler_stores_iff (ctx : Ctx) (text : JStr) (s : Session) (w : World) :
    ((∃ r, (answerHandler ctx text s w).world.results = w.results ++ [r]) ↔
      ∃ test, Accepts ctx text s w test) ∧
    ((¬ ∃ test, Accepts ctx text s w test) →
      (answerHandler ctx text s w).world = w ∧
      ∀ score correct wrong,
        Reply.testResult score correct wrong ∉ (answerHandler ctx text s w).replies) ∧
    (∀ testId test, s.currentTest = some (.testId testId) →
      findTest w.tests testId = some test → ¬ test.deadline < ctx.now →
      (parseUserAnswers text).length ≠ 0 →
      (parseUserAnswers text).length ≠ test.answers.length →
      answerHandler ctx text s w =
        { session := s, world := w,
          replies := [.countMismatch test.answers.length (parseUserAnswers text).length] }) ∧
    (∀ doc, s.currentTest = some (.testDoc doc) →
      answerHandler ctx text s w = { session := s, world := w, replies := [.genericError] }) ∧
    (∀ menu ∈ menuTexts, parseUserAnswers menu = []) := by
  refine ⟨⟨?_, ?_⟩, answerHandler_reject ctx text s w, ?_, ?_, by decide⟩
  · rintro ⟨r, hr⟩
    by_contra hno
    have hw := (answerHandler_reject ctx text s w hno).1
    rw [hw] at hr
    have := congrArg List.length hr
    simp at this
  · rintro ⟨test, h⟩
    exact ⟨_, by rw [answerHandler_accept ctx text s w test h]⟩
  · intro testId test hcur hfind hdl hne hlen
    unfold answerHandler
    simp only [hcur, hfind, Option.isNone_some, Bool.false_and, Bool.false_eq_true, if_false]
    rw [if_neg hdl, if_neg hne, if_pos (by simpa using hlen)]
  · intro doc hdoc
    unfold answerHandler
    simp [hdoc]

/-! ## C6: one result for each (test, user) pair -/

theorem findTest_id {tests : List Test} {testId : Nat} {test : Test}
    (h : findTest tests testId = some test) : test.id = testId := by
  unfold findTest at h
  have := List.find?_some h
  simpa using this

theorem findResult_none {results : List Result} {userId : Int} {testId : Nat}
    (h : findResult results userId testId = none) :
    ∀ r ∈ results, ¬ (r.testId = testId ∧ r.userId = userId) := by
  unfold findResult at h
  rw [List.find?_eq_none] at h
  intro r hr hk
  have := h r hr
  simp [hk.1, hk.2] at this

theorem takeAction_world (ctx : Ctx) (testId : Nat) (s : Session) (w : World) :
    (takeAction ctx testId s w).world = w := by
  unfold takeAction
  split
  · rfl
  · split
    · rfl
    · split <;> rfl

theorem takeAction_pending (ctx : Ctx) (testId : Nat) (s : Session) (w : World)
    (hp : NoPendingDuplicate ctx.fromId s w) :
    NoPendingDuplicate ctx.fromId (takeAction ctx testId s w).session w := by
  unfold takeAction
  split
  · exact hp
  · split
    · exact hp
    · split
      · exact hp
      · next hnone =>
        intro t ht
        simp only [Option.some.injEq, CurrentTest.testId.injEq] at ht
        subst ht
        exact findResult_none hnone

/-- One event keeps the pairs distinct and the session free of a pending
duplicate; it leaves the results as they are or appends one result of the user
for a test the user had no result for. -/
theorem takeStep_inv (userId : Int) (s : Session) (w : World) (ev : TakeEvent)
    (hn : (resultKeys w.results).Nodup) (hp : NoPendingDuplicate userId s w) :
    (resultKeys (takeStep userId (s, w) ev).2.results).Nodup ∧
    NoPendingDuplicate userId (takeStep userId (s, w) ev).1 (takeStep userId (s, w) ev).2 ∧
    w.results <+: (takeStep userId (s, w) ev).2.results := by
  cases ev with
  | take testId now =>
    simp only [takeStep, takeAction_world]
    exact ⟨hn, takeAction_pending (eventCtx userId now (.callbackQuery [])) testId s w hp,
      List.prefix_refl _⟩
  | text text now =>
    simp only [takeStep]
    by_cases hacc : ∃ test, Accepts (eventCtx userId now (.text text)) text s w test
    · obtain ⟨test, hacc⟩ := hacc
      rw [answerHandler_accept _ text s w test hacc]
      obtain ⟨testId, hcur, hfind, _, _, _⟩ := hacc
      have hid := findTest_id hfind
      refine ⟨?_, ?_, List.prefix_append _ _⟩
      · simp only [resultKeys, List.map_append, List.map_cons, List.map_nil]
        rw [List.nodup_append]
        refine ⟨hn, List.nodup_singleton _, ?_⟩
        intro k hk hk2
        rw [List.mem_singleton] at hk2
        obtain ⟨r, hr, hrk⟩ := List.mem_map.1 hk
        rw [hk2] at hrk
        simp only [Prod.mk.injEq] at hrk
        exact hp testId hcur r hr ⟨by rw [hrk.1, hid], hrk.2⟩
      · intro t ht
        simp at ht
    · have hw := (answerHandler_reject _ text s w hacc).1
      rw [hw]
      refine ⟨hn, ?_, List.prefix_refl _⟩
      intro t ht r hr
      apply hp t _ r hr
      revert ht
      unfold answerHandler
      split
      · exact id
      · split
        · split
          · simp
          · split
            · simp
            · simp only []
              split
              · exact id
              · split
                · exact id
                · simp
        · exact id
        · exact id

theorem takeRun_inv (userId : Int) (events : List TakeEvent) :
    ∀ (s : Session) (w : World), (resultKeys w.results).Nodup → NoPendingDuplicate userId s w →
    (resultKeys (takeRun userId (s, w) events).2.results).Nodup ∧
    NoPendingDuplicate userId (takeRun userId (s, w) events).1 (takeRun userId (s, w) events).2 ∧
    w.results <+: (takeRun userId (s, w) events).2.results := by
  induction events with
  | nil =>
    intro s w hn hp
    exact ⟨hn, hp, List.prefix_refl _⟩
  | cons ev evs ih =>
    intro s w hn hp
    obtain ⟨h1, h2, h3⟩ := takeStep_inv userId s w ev hn hp
    obtain ⟨k1, k2, k3⟩ := ih (takeStep userId (s, w) ev).1 (takeStep userId (s, w) ev).2 h1 h2
    exact ⟨k1, k2, h3.trans k3⟩

/-- C6.  For every sequence of `take` presses and text submissions of one user,
handled one at a time against one session that starts without a pending
duplicate: the store never holds two results with the same (test, user) pair,
the results present at the start stay in place unchanged, and for a pair that
had a result at the start every result of that pair in the end is one of the
results of the start, so no second result is stored and the first keeps its
score. -/
theorem results_unique (userId : Int) (s : Session) (w : World) (events : List TakeEvent)
    (hn : (resultKeys w.results).Nodup) (hp : NoPendingDuplicate userId s w) :
    (resultKeys (takeRun userId (s, w) events).2.results).Nodup ∧
    NoPendingDuplicate userId (takeRun userId (s, w) events).1 (takeRun userId (s, w) events).2 ∧
    w.results <+: (takeRun userId (s, w) events).2.results ∧
    (∀ testX, (∃ r ∈ w.results, r.testId = testX ∧ r.userId = userId) →
      ∀ r2 ∈ (takeRun userId (s, w) events).2.results,
        r2.testId = testX → r2.userId = userId → r2 ∈ w.results) := by
  obtain ⟨h1, h2, h3⟩ := takeRun_inv userId events s w hn hp
  refine ⟨h1, h2, h3, ?_⟩
  rintro testX ⟨r, hr, hrt, hru⟩ r2 hr2 ht hu
  obtain ⟨extra, hex⟩ := h3
  rw [← hex] at hr2 h1
  rcases List.mem_append.1 hr2 with hin | hin
  · exact hin
  · exfalso
    simp only [resultKeys, List.map_append] at h1
    rw [List.nodup_append] at h1
    apply h1.2.2 (List.mem_map_of_mem _ hr)
    have hm := List.mem_map_of_mem (fun r : Result => (r.testId, r.userId)) hin
    simpa [hrt, hru, ht, hu] using hm

/-- C6, witness.  The user takes the sample test, answers it, takes it again
and answers again: one result is stored. -/
theorem results_unique_witness :
    (resultKeys sampleWorld.results).Nodup ∧ NoPendingDuplicate 42 Session.fresh sampleWorld ∧
    (resultKeys (takeRun 42 (Session.fresh, sampleWorld) sampleEvents).2.results).Nodup ∧
    (takeRun 42 (Session.fresh, sampleWorld) sampleEvents).2.results.length = 1 := by
  have hn : (resultKeys sampleWorld.results).Nodup := by decide
  have hp : NoPendingDuplicate 42 Session.fresh sampleWorld := by
    intro t ht
    simp [Session.fresh] at ht
  exact ⟨hn, hp, (results_unique 42 Session.fresh sampleWorld sampleEvents hn hp).1, by decide⟩

/-! ## C5: the answer key of a test is never empty -/

theorem keyOk_parseAnswerKey (text : JStr) (h : parseAnswerKey text ≠ []) :
    KeyOk (parseAnswerKey text) := by
  refine ⟨h, ?_⟩
  intro token htoken
  unfold parseAnswerKey at htoken
  exact (answerPattern_iff token).1 (List.mem_filter.1 htoken).2

theorem mem_updateOne (tests : List Test) (testId : Nat) (update : TestUpdate) :
    ∀ t ∈ updateOne tests testId update, t ∈ tests ∨ ∃ t0 ∈ tests, t = applySet update t0 := by
  induction tests with
  | nil => intro t ht; simp [updateOne] at ht
  | cons a rest ih =>
    intro t ht
    unfold updateOne at ht
    split at ht
    · rcases List.mem_cons.1 ht with h | h
      · exact Or.inr ⟨a, List.mem_cons_self _ _, h⟩
      · exact Or.inl (List.mem_cons_of_mem _ h)
    · rcases List.mem_cons.1 ht with h | h
      · exact Or.inl (h ▸ List.mem_cons_self _ _)
      · rcases ih t h with h1 | ⟨t0, h0, h1⟩
        · exact Or.inl (List.mem_cons_of_mem _ h1)
        · exact Or.inr ⟨t0, List.mem_cons_of_mem _ h0, h1⟩

/-- A step that leaves the tests and the session key alone keeps the invariant,
provided it does not land on the last authoring step. -/
theorem dialogInv_of_same {s s2 : Session} {w w2 : World} (h : DialogInv s w)
    (ht : w2.tests = w.tests) (ha : s2.testAnswers = s.testAnswers)
    (hc : s2.scene = some .createTest → s2.cursor = 3 → s2.testAnswers ≠ none) :
    DialogInv s2 w2 := by
  refine ⟨?_, ?_, hc⟩
  · rw [ht]; exact h.1
  · rw [ha]; exact h.2.1

theorem registration_inv (cfg : Config) (ctx : Ctx)
    (s : Session) (w : World) (hs : s.scene = some .registration) (h : DialogInv s w) :
    DialogInv (registrationStep1 ctx s w).session (registrationStep1 ctx s w).world ∧
    DialogInv (registrationStep2 ctx s w).session (registrationStep2 ctx s w).world ∧
    DialogInv (registrationStep3 ctx s w).session (registrationStep3 ctx s w).world ∧
    DialogInv (registrationStep4 cfg ctx s w).session (registrationStep4 cfg ctx s w).world := by
  refine ⟨?_, ?_, ?_, ?_⟩
  · unfold registrationStep1
    split
    · exact h
    · exact dialogInv_of_same h rfl rfl (by simp [Session.next, hs])
  · unfold registrationStep2
    split
    · exact h
    · exact dialogInv_of_same h rfl rfl (by simp [Session.next, hs])
  · unfold registrationStep3
    split
    · exact h
    · exact dialogInv_of_same h rfl rfl (by simp [Session.next, hs])
  · unfold registrationStep4
    split
    · exact h
    · split
      · exact h
      · simp only []
        split
        · exact dialogInv_of_same h rfl rfl (by simp [Session.leave])
        · exact dialogInv_of_same h rfl rfl (by simp [Session.leave])

theorem createTest_inv (cfg : Config) (moment : Option JStr → Option Int) (ctx : Ctx)
    (s : Session) (w : World) (hs : s.scene = some .createTest) (h : DialogInv s w) :
    (s.cursor = 0 →
      DialogInv (createTestStep1 cfg ctx s w).session (createTestStep1 cfg ctx s w).world) ∧
    (s.cursor = 1 → DialogInv (createTestStep2 ctx s w).session (createTestStep2 ctx s w).world) ∧
    (s.cursor = 2 → DialogInv (createTestStep3 ctx s w).session (createTestStep3 ctx s w).world) ∧
    (s.cursor = 3 →
      DialogInv (createTestStep4 moment ctx s w).session (createTestStep4 moment ctx s w).world) := by
  refine ⟨?_, ?_, ?_, ?_⟩
  · intro hc
    unfold createTestStep1
    split
    · exact dialogInv_of_same h rfl rfl (by simp [Session.leave])
    · exact dialogInv_of_same h rfl rfl (by simp [Session.next, hc])
  · intro hc
    unfold createTestStep2
    split
    · exact h
    · exact dialogInv_of_same h rfl rfl (by simp [Session.next, hc])
  · intro hc
    unfold createTestStep3
    split
    · exact h
    · next text _ =>
      simp only []
      split
      · exact h
      · next hne =>
        have hk : KeyOk (parseAnswerKey text) :=
          keyOk_parseAnswerKey text (fun h0 => hne (by rw [h0]; rfl))
        refine ⟨h.1, ?_, ?_⟩
        · intro key hkey
          simp only [Session.next, Option.some.injEq] at hkey
          rw [← hkey]
          exact hk
        · intro _ _
          simp [Session.next]
  · intro hc
    have hsome := h.2.2 hs hc
    unfold createTestStep4
    split
    · exact dialogInv_of_same h rfl rfl (by simp [Session.leave])
    · split
      · exact h
      · next deadline _ =>
        simp only []
        cases hta : s.testAnswers with
        | none => exact absurd hta hsome
        | some key =>
          simp only []
          refine ⟨?_, ?_, by simp [Session.leave]⟩
          · intro t ht
            rcases List.mem_append.1 ht with h1 | h1
            · exact h.1 t h1
            · rw [List.mem_singleton] at h1
              rw [h1]
              simpa using h.2.1 key hta
          · intro k hk
            exact h.2.1 k (by simpa [Session.leave] using hk)

theorem editTest_inv (moment : Option JStr → Option Int) (ctx : Ctx)
    (s : Session) (w : World) (hs : s.scene = some .editTest) (h : DialogInv s w) :
    DialogInv (editTestStep1 s w).session (editTestStep1 s w).world ∧
    DialogInv (editTestStep2 ctx s w).session (editTestStep2 ctx s w).world ∧
    DialogInv (editTestStep3 moment ctx s w).session (editTestStep3 moment ctx s w).world := by
  refine ⟨?_, ?_, ?_⟩
  · unfold editTestStep1
    split
    · exact dialogInv_of_same h rfl rfl (by simp [Session.leave])
    · exact dialogInv_of_same h rfl rfl (by simp [Session.next, hs])
  · unfold editTestStep2
    split
    · exact h
    · split
      · exact dialogInv_of_same h rfl rfl (by simp [Session.leave])
      · split
        · exact h
        · split
          · exact h
          · exact dialogInv_of_same h rfl rfl (by simp [Session.next, hs])
  · unfold editTestStep3
    split
    · exact dialogInv_of_same h rfl rfl (by simp [Session.leave])
    · exact h
    · next update0 hsw =>
      have hans : ∀ key, update0.answers = some key → KeyOk key := by
        intro key hkey
        unfold editSwitch at hsw
        split at hsw
        · split at hsw
          · simp at hsw
          · simp only [EditSwitch.filled.injEq] at hsw
            rw [← hsw] at hkey
            simp [TestUpdate.empty] at hkey
        · split at hsw
          · split at hsw
            · simp at hsw
            · next text _ =>
              simp only [] at hsw
              split at hsw
              · simp at hsw
              · next hne =>
                simp only [EditSwitch.filled.injEq] at hsw
                rw [← hsw] at hkey
                simp only [Option.some.injEq] at hkey
                rw [← hkey]
                exact keyOk_parseAnswerKey text (fun h0 => hne (by rw [h0]; rfl))
          · split at hsw
            · split at hsw
              · simp at hsw
              · split at hsw
                · simp at hsw
                · simp only [EditSwitch.filled.injEq] at hsw
                  rw [← hsw] at hkey
                  simp [TestUpdate.empty] at hkey
            · simp only [EditSwitch.filled.injEq] at hsw
              rw [← hsw] at hkey
              simp [TestUpdate.empty] at hkey
      refine ⟨?_, ?_, by simp [Session.leave]⟩
      · intro t ht
        simp only [] at ht
        cases hed : s.editingTest with
        | none =>
          rw [hed] at ht
          exact h.1 t ht
        | some testId =>
          rw [hed] at ht
          rcases mem_updateOne _ _ _ t ht with h1 | ⟨t0, h0, h1⟩
          · exact h.1 t h1
          · rw [h1]
            unfold applySet
            simp only []
            cases hua : update0.answers with
            | none => simpa using h.1 t0 h0
            | some key => simpa using hans key hua
      · intro k hk
        exact h.2.1 k (by simpa [Session.leave] using hk)

theorem sceneStep_inv (cfg : Config) (moment : Option JStr → Option Int) (name : SceneName)
    (ctx : Ctx) (s : Session) (w : World) (hs : s.scene = some name) (h : DialogInv s w) :
    DialogInv (sceneStep cfg moment name ctx s w).session
      (sceneStep cfg moment name ctx s w).world := by
  have hleave : DialogInv s.leave w := dialogInv_of_same h rfl rfl (by simp [Session.leave])
  cases name with
  | registration =>
    obtain ⟨h1, h2, h3, h4⟩ := registration_inv cfg ctx s w hs h
    rcases hc : s.cursor with _ | _ | _ | _ | n <;> simp only [sceneStep, hc] <;> assumption
  | createTest =>
    obtain ⟨h1, h2, h3, h4⟩ := createTest_inv cfg moment ctx s w hs h
    rcases hc : s.cursor with _ | _ | _ | _ | n <;> simp only [sceneStep, hc]
    · exact h1 hc
    · exact h2 hc
    · exact h3 hc
    · exact h4 hc
    · exact hleave
  | editTest =>
    obtain ⟨h1, h2, h3⟩ := editTest_inv moment ctx s w hs h
    rcases hc : s.cursor with _ | _ | _ | n <;> simp only [sceneStep, hc] <;> assumption

theorem enterScene_inv (cfg : Config) (moment : Option JStr → Option Int) (name : SceneName)
    (ctx : Ctx) (s : Session) (w : World) (h : DialogInv s w) :
    DialogInv (enterScene cfg moment name ctx s w).session
      (enterScene cfg moment name ctx s w).world := by
  unfold enterScene
  apply sceneStep_inv cfg moment name ctx _ w rfl
  exact dialogInv_of_same h rfl rfl (by simp)

theorem dialogStep_inv (cfg : Config) (moment : Option JStr → Option Int) (s : Session)
    (w : World) (ev : DialogEvent) (h : DialogInv s w) :
    DialogInv (dialogStep cfg moment (s, w) ev).1 (dialogStep cfg moment (s, w) ev).2 := by
  unfold dialogStep
  cases hsc : s.scene with
  | some name => exact sceneStep_inv cfg moment name ev.ctx s w hsc h
  | none =>
    cases ev with
    | authoring ctx =>
      simp only [createTestCommand]
      split
      · exact h
      · exact enterScene_inv cfg moment .createTest ctx s w h
    | editing testId ctx =>
      simp only [editAction]
      split
      · exact h
      · split
        · exact h
        · exact enterScene_inv cfg moment .editTest ctx _ w
            (dialogInv_of_same h rfl rfl (by intro h1 h2; simpa using h.2.2 h1 h2))
    | other ctx => exact h

theorem dialogRun_inv (cfg : Config) (moment : Option JStr → Option Int)
    (events : List DialogEvent) :
    ∀ (s : Session) (w : World), DialogInv s w →
      DialogInv (dialogRun cfg moment (s, w) events).1 (dialogRun cfg moment (s, w) events).2 := by
  induction events with
  | nil => intro s w h; exact h
  | cons ev evs ih =>
    intro s w h
    exact ih _ _ (dialogStep_inv cfg moment s w ev h)

/-- C5.  From a session and a store in which every key is well-formed (as with
a new session and an empty store), after any sequence of updates handled by the
test authoring and test editing dialogs every stored test has a key that is not
empty and whose tokens all match the pattern.  A text with no matching line is
rejected in authoring step 3 and in editing step 3 (choice 2): the reply is the
format error and the session (so the step) and the store are as before.  A text
with a matching line stores exactly its parsed key, which is well-formed. -/
theorem answer_key_never_empty (cfg : Config) (moment : Option JStr → Option Int) (s : Session)
    (w : World) (events : List DialogEvent) (h : DialogInv s w) :
    DialogInv (dialogRun cfg moment (s, w) events).1 (dialogRun cfg moment (s, w) events).2 ∧
    (∀ t ∈ (dialogRun cfg moment (s, w) events).2.tests,
      t.answers ≠ [] ∧ ∀ token ∈ t.answers, IsKeyLine token) ∧
    (∀ (ctx : Ctx) (text : JStr) (s1 : Session) (w1 : World), ctx.incoming = .text text →
      parseAnswerKey text = [] →
      createTestStep3 ctx s1 w1 = { session := s1, world := w1, replies := [.badAnswerFormat] } ∧
      (s1.editChoice = some 2 → editTestStep3 moment ctx s1 w1 =
        { session := s1, world := w1, replies := [.badAnswerFormat] })) ∧
    (∀ (ctx : Ctx) (text : JStr) (s1 : Session) (w1 : World), ctx.incoming = .text text →
      parseAnswerKey text ≠ [] →
      (createTestStep3 ctx s1 w1).session.testAnswers = some (parseAnswerKey text) ∧
      (createTestStep3 ctx s1 w1).session.cursor = s1.cursor + 1 ∧
      KeyOk (parseAnswerKey text)) := by
  have hinv := dialogRun_inv cfg moment events s w h
  refine ⟨hinv, hinv.1, ?_, ?_⟩
  · intro ctx text s1 w1 hin hparse
    constructor
    · simp [createTestStep3, hin, Incoming.messageText, hparse]
    · intro hch
      simp [editTestStep3, editSwitch, hch, hin, Incoming.messageText, hparse]
  · intro ctx text s1 w1 hin hparse
    have hlen : (parseAnswerKey text).length ≠ 0 := by
      intro h0
      exact hparse (List.length_eq_zero.1 h0)
    refine ⟨?_, ?_, keyOk_parseAnswerKey text hparse⟩
    · simp [createTestStep3, hin, Incoming.messageText, hparse, Session.next]
    · simp [createTestStep3, hin, Incoming.messageText, hparse, Session.next]

/-- C5, witness.  A teacher authors a test from a new session and an empty
store; the text without a matching line is refused and the stored key is the
two matching lines of the next text. -/
theorem answer_key_never_empty_witness :
    DialogInv Session.fresh emptyWorld ∧
    (∀ t ∈ (dialogRun sampleConfig (fun _ => some 5000) (Session.fresh, emptyWorld)
        sampleAuthoring).2.tests, t.answers ≠ [] ∧ ∀ token ∈ t.answers, IsKeyLine token) ∧
    (dialogRun sampleConfig (fun _ => some 5000) (Session.fresh, emptyWorld)
        sampleAuthoring).2.tests.map (fun t => t.answers) = [["1-a".toList, "2-B".toList]] := by
  have h0 : DialogInv Session.fresh emptyWorld := by
    refine ⟨?_, ?_, ?_⟩
    · intro t ht; simp [emptyWorld] at ht
    · intro key hkey; simp [Session.fresh] at hkey
    · intro h1; simp [Session.fresh] at h1
  exact ⟨h0, (answer_key_never_empty sampleConfig (fun _ => some 5000) Session.fresh emptyWorld
    sampleAuthoring h0).2.1, by decide⟩

/-! ## C7: an edit changes the chosen field only -/

theorem applySet_id (update : TestUpdate) (t : Test) : (applySet update t).id = t.id := rfl

theorem findTest_updateOne_same (tests : List Test) (testId : Nat) (update : TestUpdate) :
    findTest (updateOne tests testId update) testId =
      (findTest tests testId).map (applySet update) := by
  induction tests with
  | nil => rfl
  | cons a rest ih =>
    unfold updateOne
    by_cases h : (a.id == testId) = true
    · rw [if_pos h]
      simp [findTest, List.find?_cons, applySet_id, h]
    · rw [if_neg h]
      simp only [findTest, List.find?_cons] at ih ⊢
      simp only [h]
      exact ih

theorem findTest_updateOne_other (tests : List Test) (testId other : Nat)
    (update : TestUpdate) (hne : other ≠ testId) :
    findTest (updateOne tests testId update) other = findTest tests other := by
  induction tests with
  | nil => rfl
  | cons a rest ih =>
    unfold updateOne
    by_cases h : (a.id == testId) = true
    · rw [if_pos h]
      have ha : a.id = testId := by simpa using h
      have hno : (a.id == other) = false := by
        simp only [beq_eq_false_iff_ne, ne_eq]
        intro h2
        exact hne (by rw [← h2, ha])
      simp [findTest, List.find?_cons, applySet_id, hno]
    · rw [if_neg h]
      simp only [findTest, List.find?_cons] at ih ⊢
      rw [ih]

/-- C7.  In step 3 of the edit dialog, for each choice and each valid new value
(a title text, a text with a matching answer line, a text that parses as a
deadline), the object given to `$set` holds the chosen field and `updatedAt` and
nothing else, and the edited test afterwards is the test as it was with that
field replaced and `updatedAt` set to now: the other two of title, answers and
deadline, the owner, the creation time and the id are as before; the other
tests, the users and the results are as before. -/
theorem edit_changes_chosen_field_only (moment : Option JStr → Option Int) (ctx : Ctx)
    (s : Session) (w : World) (testId : Nat) (test : Test) (text : JStr)
    (hin : ctx.incoming = .text text) (hed : s.editingTest = some testId)
    (hfind : findTest w.tests testId = some test) :
    (s.editChoice = some 1 →
      editSwitch moment s.editChoice ctx.incoming =
        .filled { title := some (some text), answers := none, deadline := none,
                  updatedAt := none } ∧
      findTest (editTestStep3 moment ctx s w).world.tests testId =
        some { test with title := some text, updatedAt := ctx.now }) ∧
    (s.editChoice = some 2 → parseAnswerKey text ≠ [] →
      editSwitch moment s.editChoice ctx.incoming =
        .filled { title := none, answers := some (parseAnswerKey text), deadline := none,
                  updatedAt := none } ∧
      findTest (editTestStep3 moment ctx s w).world.tests testId =
        some { test with answers := parseAnswerKey text, updatedAt := ctx.now }) ∧
    (s.editChoice = some 3 → ∀ deadline, moment (some text) = some deadline →
      editSwitch moment s.editChoice ctx.incoming =
        .filled { title := none, answers := none, deadline := some deadline,
                  updatedAt := none } ∧
      findTest (editTestStep3 moment ctx s w).world.tests testId =
        some { test with deadline := deadline, updatedAt := ctx.now }) ∧
    (∀ other, other ≠ testId →
      findTest (editTestStep3 moment ctx s w).world.tests other = findTest w.tests other) ∧
    (editTestStep3 moment ctx s w).world.users = w.users ∧
    (editTestStep3 moment ctx s w).world.results = w.results := by
  refine ⟨?_, ?_, ?_, ?_, ?_, ?_⟩
  · intro hch
    have hsw : editSwitch moment s.editChoice ctx.incoming =
        .filled { title := some (some text), answers := none, deadline := none,
                  updatedAt := none } := by
      simp [editSwitch, hch, hin, Incoming.hasMessage, Incoming.messageText, TestUpdate.empty]
    refine ⟨hsw, ?_⟩
    unfold editTestStep3
    rw [hsw]
    simp only [hed]
    rw [findTest_updateOne_same, hfind]
    rfl
  · intro hch hparse
    have hsw : editSwitch moment s.editChoice ctx.incoming =
        .filled { title := none, answers := some (parseAnswerKey text), deadline := none,
                  updatedAt := none } := by
      simp [editSwitch, hch, hin, Incoming.messageText, TestUpdate.empty, hparse]
    refine ⟨hsw, ?_⟩
    unfold editTestStep3
    rw [hsw]
    simp only [hed]
    rw [findTest_updateOne_same, hfind]
    rfl
  · intro hch deadline hmoment
    have hsw : editSwitch moment s.editChoice ctx.incoming =
        .filled { title := none, answers := none, deadline := some deadline,
                  updatedAt := none } := by
      simp [editSwitch, hch, hin, Incoming.hasMessage, Incoming.messageText, TestUpdate.empty,
        hmoment]
    refine ⟨hsw, ?_⟩
    unfold editTestStep3
    rw [hsw]
    simp only [hed]
    rw [findTest_updateOne_same, hfind]
    rfl
  · intro other hne
    unfold editTestStep3
    split
    · rfl
    · rfl
    · simp only [hed]
      exact findTest_updateOne_other _ _ _ _ hne
  · unfold editTestStep3
    split <;> rfl
  · unfold editTestStep3
    split <;> rfl

/-- C7, witness.  Editing the deadline of the sample test leaves its title and
its answer key as they were. -/
theorem edit_changes_chosen_field_only_witness :
    (sampleCtx "01.01.2031 09:00".toList).incoming = .text "01.01.2031 09:00".toList ∧
    (sampleEditing 3).editingTest = some 1 ∧
    findTest sampleWorld.tests 1 = some sampleTest ∧
    findTest (editTestStep3 (fun _ => some 9000) (sampleCtx "01.01.2031 09:00".toList)
        (sampleEditing 3) sampleWorld).world.tests 1 =
      some { sampleTest with deadline := 9000, updatedAt := 500 } :=
  ⟨rfl, rfl, rfl,
    ((edit_changes_chosen_field_only (fun _ => some 9000) (sampleCtx "01.01.2031 09:00".toList)
      (sampleEditing 3) sampleWorld 1 sampleTest "01.01.2031 09:00".toList rfl rfl rfl).2.2.1
        rfl 9000 rfl).2⟩

/-! ## C10: the contact of the registration belongs to the sender -/

/-- C10.  In step 4 of the registration, an update without a contact, or with a
contact whose `user_id` is not the sender, leaves the session (scene and cursor
with it) and the store as they were; whenever the users of the store change, the
update carries a contact whose `user_id` is the sender, and the user added has
the identity of the sender.  The stage runs this step at cursor 3. -/
theorem registration_contact_guard (cfg : Config) (moment : Option JStr → Option Int)
    (ctx : Ctx) (s : Session) (w : World) :
    (ctx.incoming.messageContact = none →
      registrationStep4 cfg ctx s w =
        { session := s, world := w, replies := [.pressContactButton] }) ∧
    (∀ contact, ctx.incoming.messageContact = some contact →
      contact.user_id ≠ some ctx.fromId →
      registrationStep4 cfg ctx s w =
        { session := s, world := w, replies := [.sendOwnContact] }) ∧
    ((registrationStep4 cfg ctx s w).world.users ≠ w.users →
      ∃ contact, ctx.incoming = .contact contact ∧ contact.user_id = some ctx.fromId ∧
        ∃ user, (registrationStep4 cfg ctx s w).world.users = w.users ++ [user] ∧
          user.telegramId = ctx.fromId ∧ user.phoneNumber = contact.phone_number) ∧
    (∀ contact, ctx.incoming = .contact contact → contact.user_id = some ctx.fromId →
      (∀ u ∈ w.users, u.telegramId ≠ ctx.fromId) →
      ∃ user, (registrationStep4 cfg ctx s w).world.users = w.users ++ [user] ∧
        user.telegramId = ctx.fromId ∧ (registrationStep4 cfg ctx s w).session.scene = none) ∧
    (s.cursor = 3 →
      sceneStep cfg moment .registration ctx s w = registrationStep4 cfg ctx s w) := by
  refine ⟨?_, ?_, ?_, ?_, ?_⟩
  · intro h
    simp [registrationStep4, h]
  · intro contact h hne
    simp [registrationStep4, h, hne]
  · intro hch
    unfold registrationStep4 at hch ⊢
    cases hin : ctx.incoming with
    | text t => simp [hin, Incoming.messageContact] at hch
    | otherMessage => simp [hin, Incoming.messageContact] at hch
    | callbackQuery d => simp [hin, Incoming.messageContact] at hch
    | contact contact =>
      simp only [hin, Incoming.messageContact] at hch ⊢
      by_cases hid : contact.user_id = some ctx.fromId
      · refine ⟨contact, rfl, hid, ?_⟩
        rw [if_neg (not_not.2 hid)] at hch ⊢
        simp only [insertUser] at hch ⊢
        by_cases hany : (w.users.any (fun u => u.telegramId == ctx.fromId)) = true
        · rw [if_pos hany] at hch
          exact absurd rfl hch
        · rw [if_neg hany]
          exact ⟨_, rfl, rfl, rfl⟩
      · rw [if_pos hid] at hch
        exact absurd rfl hch
  · intro contact hin hid hnew
    have hany : ¬ (w.users.any (fun u => u.telegramId == ctx.fromId) = true) := by
      simp only [List.any_eq_true, beq_iff_eq, not_exists, not_and]
      intro u hu
      exact hnew u hu
    unfold registrationStep4
    simp only [hin, Incoming.messageContact]
    rw [if_neg (not_not.2 hid)]
    simp only [insertUser]
    rw [if_neg hany]
    exact ⟨_, rfl, rfl, rfl⟩
  · intro hc
    simp [sceneStep, hc]

/-! ## C8: the statistics of the export -/

theorem foldl_add_eq_sum (l : List ℚ) (a : ℚ) :
    l.foldl (fun sum score => sum + score) a = a + l.sum := by
  induction l generalizing a with
  | nil => simp
  | cons x xs ih =>
    simp only [List.foldl_cons, List.sum_cons]
    rw [ih]
    ring

theorem foldl_max_spec (l : List ℚ) :
    ∀ a : WithBot ℚ,
      a ≤ List.foldl (fun (acc : WithBot ℚ) (x : ℚ) => max acc (x : WithBot ℚ)) a l ∧
      (∀ x ∈ l, (x : WithBot ℚ) ≤
        List.foldl (fun (acc : WithBot ℚ) (x : ℚ) => max acc (x : WithBot ℚ)) a l) ∧
      (List.foldl (fun (acc : WithBot ℚ) (x : ℚ) => max acc (x : WithBot ℚ)) a l = a ∨
        ∃ m ∈ l, List.foldl (fun (acc : WithBot ℚ) (x : ℚ) => max acc (x : WithBot ℚ)) a l =
          (m : WithBot ℚ)) := by
  induction l with
  | nil => intro a; simp
  | cons x xs ih =>
    intro a
    obtain ⟨h1, h2, h3⟩ := ih (max a (x : WithBot ℚ))
    rw [List.foldl_cons]
    refine ⟨le_trans (le_max_left _ _) h1, ?_, ?_⟩
    · intro y hy
      rcases List.mem_cons.1 hy with h | h
      · rw [h]; exact le_trans (le_max_right _ _) h1
      · exact h2 y h
    · rcases h3 with h | ⟨m, hm, h⟩
      · rcases max_choice a (x : WithBot ℚ) with hc | hc
        · left; rw [h, hc]
        · right; exact ⟨x, List.mem_cons_self _ _, by rw [h, hc]⟩
      · right; exact ⟨m, List.mem_cons_of_mem _ hm, h⟩

theorem foldl_min_spec (l : List ℚ) :
    ∀ a : WithTop ℚ,
      List.foldl (fun (acc : WithTop ℚ) (x : ℚ) => min acc (x : WithTop ℚ)) a l ≤ a ∧
      (∀ x ∈ l, List.foldl (fun (acc : WithTop ℚ) (x : ℚ) => min acc (x : WithTop ℚ)) a l ≤
        (x : WithTop ℚ)) ∧
      (List.foldl (fun (acc : WithTop ℚ) (x : ℚ) => min acc (x : WithTop ℚ)) a l = a ∨
        ∃ m ∈ l, List.foldl (fun (acc : WithTop ℚ) (x : ℚ) => min acc (x : WithTop ℚ)) a l =
          (m : WithTop ℚ)) := by
  induction l with
  | nil => intro a; simp
  | cons x xs ih =>
    intro a
    obtain ⟨h1, h2, h3⟩ := ih (min a (x : WithTop ℚ))
    rw [List.foldl_cons]
    refine ⟨le_trans h1 (min_le_left _ _), ?_, ?_⟩
    · intro y hy
      rcases List.mem_cons.1 hy with h | h
      · rw [h]; exact le_trans h1 (min_le_right _ _)
      · exact h2 y h
    · rcases h3 with h | ⟨m, hm, h⟩
      · rcases min_choice a (x : WithTop ℚ) with hc | hc
        · left; rw [h, hc]
        · right; exact ⟨x, List.mem_cons_self _ _, by rw [h, hc]⟩
      · right; exact ⟨m, List.mem_cons_of_mem _ hm, h⟩

/-- For a list that is not empty `Math.max` gives its largest element. -/
theorem mathMax_spec (l : List ℚ) (hne : l ≠ []) :
    ∃ m ∈ l, (∀ x ∈ l, x ≤ m) ∧ mathMax l = (m : WithBot ℚ) := by
  obtain ⟨_, h2, h3⟩ := foldl_max_spec l ⊥
  obtain ⟨y, ys, rfl⟩ := List.exists_cons_of_ne_nil hne
  rcases h3 with h | ⟨m, hm, h⟩
  · have := h2 y (List.mem_cons_self _ _)
    rw [h] at this
    simp at this
  · refine ⟨m, hm, ?_, h⟩
    intro x hx
    have := h2 x hx
    rw [h] at this
    exact WithBot.coe_le_coe.1 this

/-- For a list that is not empty `Math.min` gives its smallest element. -/
theorem mathMin_spec (l : List ℚ) (hne : l ≠ []) :
    ∃ m ∈ l, (∀ x ∈ l, m ≤ x) ∧ mathMin l = (m : WithTop ℚ) := by
  obtain ⟨_, h2, h3⟩ := foldl_min_spec l ⊤
  obtain ⟨y, ys, rfl⟩ := List.exists_cons_of_ne_nil hne
  rcases h3 with h | ⟨m, hm, h⟩
  · have := h2 y (List.mem_cons_self _ _)
    rw [h] at this
    simp at this
  · refine ⟨m, hm, ?_, h⟩
    intro x hx
    have := h2 x hx
    rw [h] at this
    exact WithTop.coe_le_coe.1 this

/-- A number with at most one decimal is printed as it is. -/
theorem toFixed1_tenth (n : ℤ) : toFixed1 ((n : ℚ) / 10) = (n : ℚ) / 10 := by
  unfold toFixed1
  have key : ∀ k : ℤ, ⌊(k : ℚ) + 1 / 2⌋ = k := by
    intro k
    rw [Int.floor_eq_iff]
    constructor <;> linarith
  split
  · have e : -((n : ℚ) / 10) * 10 + 1 / 2 = ((-n : ℤ) : ℚ) + 1 / 2 := by push_cast; ring
    rw [e, key]
    push_cast
    ring
  · have e : (n : ℚ) / 10 * 10 + 1 / 2 = (n : ℚ) + 1 / 2 := by ring
    rw [e, key]

/-- The printed number is within one twentieth of the number. -/
theorem toFixed1_near (x : ℚ) : |toFixed1 x - x| ≤ 1 / 20 := by
  unfold toFixed1
  rw [abs_le]
  split
  · have h1 := Int.floor_le (-x * 10 + 1 / 2)
    have h2 := Int.lt_floor_add_one (-x * 10 + 1 / 2)
    constructor <;> linarith
  · have h1 := Int.floor_le (x * 10 + 1 / 2)
    have h2 := Int.lt_floor_add_one (x * 10 + 1 / 2)
    constructor <;> linarith

theorem band_counts_total (l : List ℚ) :
    l.countP (fun x => decide (x ≥ 80)) +
      l.countP (fun x => decide (x ≥ 60) && decide (x < 80)) +
      l.countP (fun x => decide (x < 60)) = l.length := by
  induction l with
  | nil => rfl
  | cons x xs ih =>
    simp only [List.countP_cons, List.length_cons]
    by_cases h80 : x ≥ 80
    · have h60 : x ≥ 60 := by linarith
      have n80 : ¬ x < 80 := by linarith
      have n60 : ¬ x < 60 := by linarith
      simp only [h80, h60, n80, n60, decide_True, decide_False, Bool.and_false, if_true,
        Bool.false_eq_true, if_false]
      omega
    · by_cases h60 : x ≥ 60
      · have l80 : x < 80 := by linarith
        have n60 : ¬ x < 60 := by linarith
        simp only [h80, h60, l80, n60, decide_True, decide_False, Bool.and_true, if_true,
          Bool.false_eq_true, if_false]
        omega
      · have l80 : x < 80 := by linarith
        have l60 : x < 60 := by linarith
        simp only [h80, h60, l80, l60, decide_True, decide_False, Bool.and_true, if_true,
          Bool.false_eq_true, if_false, Bool.false_and]
        omega

theorem statistics_avg (results : List JoinedResult) (hne : results ≠ []) :
    (statistics results).avgScore =
      some (toFixed1 ((results.map (fun r => r.result.score)).sum / (results.length : ℚ))) := by
  have hlen : ((results.map (fun r => r.result.score)).length : ℚ) ≠ 0 := by
    rw [List.length_map]
    exact Nat.cast_ne_zero.2 (fun h => hne (List.length_eq_zero.1 h))
  simp only [statistics, divide]
  rw [if_neg hlen, foldl_add_eq_sum, zero_add, List.length_map]
  rfl

theorem statistics_max (results : List JoinedResult) (hne : results ≠ []) :
    ∃ m ∈ results.map (fun r => r.result.score),
      (∀ x ∈ results.map (fun r => r.result.score), x ≤ m) ∧
      (statistics results).maxScore = ((toFixed1 m : ℚ) : WithBot ℚ) := by
  obtain ⟨m, hm, hle, h⟩ := mathMax_spec _ (fun h => hne (List.map_eq_nil_iff.1 h))
  refine ⟨m, hm, hle, ?_⟩
  simp only [statistics]
  rw [h]
  rfl

theorem statistics_min (results : List JoinedResult) (hne : results ≠ []) :
    ∃ m ∈ results.map (fun r => r.result.score),
      (∀ x ∈ results.map (fun r => r.result.score), m ≤ x) ∧
      (statistics results).minScore = ((toFixed1 m : ℚ) : WithTop ℚ) := by
  obtain ⟨m, hm, hle, h⟩ := mathMin_spec _ (fun h => hne (List.map_eq_nil_iff.1 h))
  refine ⟨m, hm, hle, ?_⟩
  simp only [statistics]
  rw [h]
  rfl

/-- C8.  For every list of joined results that is not empty, with `scores` the
scores of the list: the statistics block prints (with one decimal, `toFixed1`)
the mean `sum scores / length scores`, the largest score and the smallest score,
and the band counts are the number of scores `>= 80`, the number of scores
`>= 60` and `< 80`, and the number of scores `< 60`, which add up to the number
of results.  Printing changes a number by at most one twentieth and leaves a
number with at most one decimal as it is.  The document of the download action
carries these statistics of the joined results of the test. -/
theorem statistics_correct (results : List JoinedResult) (hne : results ≠ []) :
    (statistics results).avgScore =
      some (toFixed1 ((results.map (fun r => r.result.score)).sum / (results.length : ℚ))) ∧
    (∃ m ∈ results.map (fun r => r.result.score),
      (∀ x ∈ results.map (fun r => r.result.score), x ≤ m) ∧
      (statistics results).maxScore = ((toFixed1 m : ℚ) : WithBot ℚ)) ∧
    (∃ m ∈ results.map (fun r => r.result.score),
      (∀ x ∈ results.map (fun r => r.result.score), m ≤ x) ∧
      (statistics results).minScore = ((toFixed1 m : ℚ) : WithTop ℚ)) ∧
    (statistics results).excellent =
      (results.map (fun r => r.result.score)).countP (fun x => decide (x ≥ 80)) ∧
    (statistics results).good =
      (results.map (fun r => r.result.score)).countP
        (fun x => decide (x ≥ 60) && decide (x < 80)) ∧
    (statistics results).poor =
      (results.map (fun r => r.result.score)).countP (fun x => decide (x < 60)) ∧
    (statistics results).excellent + (statistics results).good + (statistics results).poor =
      results.length ∧
    (∀ x : ℚ, |toFixed1 x - x| ≤ 1 / 20) ∧
    (∀ n : ℤ, toFixed1 ((n : ℚ) / 10) = (n : ℚ) / 10) ∧
    (∀ testId w report, DownloadReply.document report ∈ downloadAction testId w →
      report.statistics = statistics (sortByScore (lookupUsers w.users w.results testId))) := by
  have he : (statistics results).excellent =
      (results.map (fun r => r.result.score)).countP (fun x => decide (x ≥ 80)) := by
    rw [List.countP_map, List.countP_eq_length_filter]
    rfl
  have hg : (statistics results).good =
      (results.map (fun r => r.result.score)).countP
        (fun x => decide (x ≥ 60) && decide (x < 80)) := by
    rw [List.countP_map, List.countP_eq_length_filter]
    rfl
  have hp : (statistics results).poor =
      (results.map (fun r => r.result.score)).countP (fun x => decide (x < 60)) := by
    rw [List.countP_map, List.countP_eq_length_filter]
    rfl
  refine ⟨statistics_avg results hne, statistics_max results hne, statistics_min results hne,
    he, hg, hp, ?_, toFixed1_near, toFixed1_tenth, ?_⟩
  · rw [he, hg, hp, band_counts_total, List.length_map]
  · intro testId w report hmem
    unfold downloadAction at hmem
    split at hmem
    · simp at hmem
    · simp only [] at hmem
      split at hmem
      · simp at hmem
      · simp only [List.mem_cons, List.mem_singleton, DownloadReply.document.injEq,
          List.not_mem_nil, or_false, false_or, reduceCtorEq] at hmem
        rw [hmem]
        rfl

/-- C8, witness.  The scores 90, 70 and 50 give the mean 70, the maximum 90, the
minimum 50 and one result in each band. -/
theorem statistics_correct_witness :
    sampleResults ≠ [] ∧
    (statistics sampleResults).avgScore = some 70 ∧
    (statistics sampleResults).maxScore = ((90 : ℚ) : WithBot ℚ) ∧
    (statistics sampleResults).minScore = ((50 : ℚ) : WithTop ℚ) ∧
    (statistics sampleResults).excellent = 1 ∧
    (statistics sampleResults).good = 1 ∧
    (statistics sampleResults).poor = 1 := by
  have hne : sampleResults ≠ [] := by simp [sampleResults]
  obtain ⟨havg, hmaxE, hminE, he, hg, hp, _, _, htenth, _⟩ :=
    statistics_correct sampleResults hne
  have h700 := htenth 700
  have h900 := htenth 900
  have h500 := htenth 500
  norm_num at h700 h900 h500
  refine ⟨hne, ?_, ?_, ?_, ?_, ?_, ?_⟩
  · rw [havg]
    norm_num [sampleResults, sampleJoined, h700]
  · obtain ⟨m, hm, hle, hmax⟩ := hmaxE
    have h1 := hle 90 (by simp [sampleResults, sampleJoined])
    have h90 : m = 90 := by
      simp only [sampleResults, sampleJoined, List.map_cons, List.map_nil, List.mem_cons,
        List.mem_singleton, List.not_mem_nil, or_false] at hm
      rcases hm with h | h | h
      · exact h
      · exfalso; rw [h] at h1; norm_num at h1
      · exfalso; rw [h] at h1; norm_num at h1
    rw [hmax, h90, h900]
  · obtain ⟨m, hm, hle, hmin⟩ := hminE
    have h1 := hle 50 (by simp [sampleResults, sampleJoined])
    have h50 : m = 50 := by
      simp only [sampleResults, sampleJoined, List.map_cons, List.map_nil, List.mem_cons,
        List.mem_singleton, List.not_mem_nil, or_false] at hm
      rcases hm with h | h | h
      · exfalso; rw [h] at h1; norm_num at h1
      · exfalso; rw [h] at h1; norm_num at h1
      · exact h
    rw [hmin, h50, h500]
  · rw [he]
    norm_num [sampleResults, sampleJoined]
  · rw [hg]
    norm_num [sampleResults, sampleJoined]
  · rw [hp]
    norm_num [sampleResults, sampleJoined]

/-! ## C9: no statistics over an empty list -/

theorem lookupUsers_of_no_results (users : List User) (results : List Result) (testId : Nat)
    (h : ∀ r ∈ results, r.testId ≠ testId) : lookupUsers users results testId = [] := by
  unfold lookupUsers
  have hf : results.filter (fun r => r.testId == testId) = [] := by
    rw [List.filter_eq_nil_iff]
    intro r hr
    simpa using h r hr
  rw [hf]
  rfl

theorem sortByScore_length (rs : List JoinedResult) : (sortByScore rs).length = rs.length := by
  unfold sortByScore
  exact List.length_mergeSort rs

theorem sortBySubmittedAt_length (rs : List JoinedResult) :
    (sortBySubmittedAt rs).length = rs.length := by
  unfold sortBySubmittedAt
  exact List.length_mergeSort rs

/-- C9.  A test without results has no joined results, and with no joined
results the download action (for a stored test) and the results view (for a
stored test and its owner or the administrator) end in their "no data" reply;
the results view lists at least one line when it lists.  Whenever the download action
sends a document, its statistics are those of a list of results that is not
empty: the divisor of the mean is positive, the mean is a number and the maximum
and minimum are scores, not the infinities of an empty `Math.max` / `Math.min`.
The division gives no number exactly when the divisor is zero, which is what the
statistics of the empty list would hold. -/
theorem empty_aggregation_safe (cfg : Config) (fromId : Int) (testId : Nat) (w : World) :
    ((∀ r ∈ w.results, r.testId ≠ testId) → lookupUsers w.users w.results testId = []) ∧
    (∀ test, findTest w.tests testId = some test →
      lookupUsers w.users w.results testId = [] →
      downloadAction testId w = [.loading, .noResultsYet]) ∧
    (∀ test, findTest w.tests testId = some test →
      (test.createdBy = fromId ∨ cfg.adminId = some fromId) →
      lookupUsers w.users w.results testId = [] →
      resultsAction cfg fromId testId w = .noResults) ∧
    (∀ lines title, resultsAction cfg fromId testId w = .list title lines → lines ≠ []) ∧
    (∀ report, DownloadReply.document report ∈ downloadAction testId w →
      ∃ results : List JoinedResult, results ≠ [] ∧ report.statistics = statistics results ∧
        report.participants = results.length ∧ 0 < report.participants ∧
        report.statistics.avgScore ≠ none ∧ report.statistics.maxScore ≠ ⊥ ∧
        report.statistics.minScore ≠ ⊤) ∧
    ((statistics []).avgScore = none ∧ (statistics []).maxScore = ⊥ ∧
      (statistics []).minScore = ⊤) ∧
    (∀ a b : ℚ, divide a b = none ↔ b = 0) := by
  refine ⟨lookupUsers_of_no_results _ _ _, ?_, ?_, ?_, ?_, ⟨rfl, rfl, rfl⟩, ?_⟩
  · intro test hfind h
    unfold downloadAction
    simp only [hfind]
    rw [if_pos (by rw [sortByScore_length, h]; rfl)]
  · intro test hfind hown h
    unfold resultsAction
    simp only [hfind]
    rw [if_neg (by
      rintro ⟨h1, h2⟩
      rcases hown with h3 | h3
      · exact h1 h3
      · exact h2 h3)]
    rw [if_pos (by rw [sortBySubmittedAt_length, h]; rfl)]
  · intro lines title hlist
    unfold resultsAction at hlist
    split at hlist
    · simp at hlist
    · split at hlist
      · simp at hlist
      · simp only [] at hlist
        split at hlist
        · simp at hlist
        · next hlen =>
          simp only [ViewReply.list.injEq] at hlist
          rw [← hlist.2]
          intro h0
          apply hlen
          have := congrArg List.length h0
          simpa using this
  · intro report hmem
    unfold downloadAction at hmem
    split at hmem
    · simp at hmem
    · next test _ =>
      simp only [] at hmem
      split at hmem
      · simp at hmem
      · next hlen =>
        simp only [List.mem_cons, List.mem_singleton, DownloadReply.document.injEq,
          List.not_mem_nil, or_false, false_or, reduceCtorEq] at hmem
        have hne : sortByScore (lookupUsers w.users w.results testId) ≠ [] := by
          intro h0
          apply hlen
          rw [h0]
          rfl
        have havg := statistics_avg _ hne
        obtain ⟨m, _, _, hmax⟩ := statistics_max _ hne
        obtain ⟨m2, _, _, hmin⟩ := statistics_min _ hne
        refine ⟨_, hne, by rw [hmem]; rfl, by rw [hmem]; rfl, ?_, ?_, ?_, ?_⟩
        · rw [hmem]
          exact Nat.pos_of_ne_zero hlen
        · rw [hmem]
          show (statistics _).avgScore ≠ none
          rw [havg]
          simp
        · rw [hmem]
          show (statistics _).maxScore ≠ ⊥
          rw [hmax]
          exact WithBot.coe_ne_bot
        · rw [hmem]
          show (statistics _).minScore ≠ ⊤
          rw [hmin]
          exact WithTop.coe_ne_top
  · intro a b
    unfold divide
    split <;> simp [*]

/-! ## C11: deleting a test -/

theorem findTest_deleteOne_same (tests : List Test) (testId : Nat)
    (hids : (tests.map (fun t => t.id)).Nodup) : findTest (deleteOne tests testId) testId = none := by
  induction tests with
  | nil => rfl
  | cons a rest ih =>
    rw [List.map_cons, List.nodup_cons] at hids
    unfold deleteOne
    by_cases h : (a.id == testId) = true
    · rw [if_pos h]
      have ha : a.id = testId := by simpa using h
      unfold findTest
      rw [List.find?_eq_none]
      intro t ht hid
      apply hids.1
      have : t.id = a.id := by rw [ha]; simpa using hid
      rw [← this]
      exact List.mem_map_of_mem _ ht
    · rw [if_neg h]
      have ih2 := ih hids.2
      simp only [findTest, List.find?_cons] at ih2 ⊢
      simp only [h]
      exact ih2

theorem findTest_deleteOne_other (tests : List Test) (testId other : Nat) (hne : other ≠ testId) :
    findTest (deleteOne tests testId) other = findTest tests other := by
  induction tests with
  | nil => rfl
  | cons a rest ih =>
    unfold deleteOne
    by_cases h : (a.id == testId) = true
    · rw [if_pos h]
      have ha : a.id = testId := by simpa using h
      have hno : (a.id == other) = false := by
        simp only [beq_eq_false_iff_ne, ne_eq]
        intro h2
        exact hne (by rw [← h2, ha])
      simp [findTest, List.find?_cons, hno]
    · rw [if_neg h]
      simp only [findTest, List.find?_cons] at ih ⊢
      rw [ih]

theorem mem_deleteMany (results : List Result) (testId : Nat) (r : Result) :
    r ∈ deleteMany results testId ↔ r ∈ results ∧ r.testId ≠ testId := by
  unfold deleteMany
  rw [List.mem_filter]
  simp

theorem downloadAction_not_found (testId : Nat) (w : World)
    (h : findTest w.tests testId = none) : downloadAction testId w = [.testNotFound] := by
  unfold downloadAction
  rw [h]

theorem deleteAction_world (cfg : Config) (ctx : Ctx) (testId : Nat) (s : Session) (w : World)
    (test : Test) (hfind : findTest w.tests testId = some test)
    (hown : test.createdBy = ctx.fromId ∨ cfg.adminId = some ctx.fromId) :
    deleteAction cfg ctx testId s w =
      { session := s,
        world := { w with tests := deleteOne w.tests testId,
                          results := deleteMany w.results testId },
        replies := [.testDeleted] } := by
  unfold deleteAction
  simp only [hfind]
  rw [if_neg]
  rintro ⟨h1, h2⟩
  rcases hown with h3 | h3
  · exact h1 h3
  · exact h2 h3

/-- C11, as amended.  When the owner of a stored test or the administrator runs
the delete action (ids being unique in the collection), afterwards the test is
gone, no result refers to its id, the results are exactly the other results in
their order, the other tests and the users are as before, and a later results
export (and a later results view) for that id answers "test not found": no
document is built and no joined result exists for the id. -/
theorem delete_cascades (cfg : Config) (ctx : Ctx) (testId : Nat) (s : Session) (w : World)
    (test : Test) (hfind : findTest w.tests testId = some test)
    (hown : test.createdBy = ctx.fromId ∨ cfg.adminId = some ctx.fromId)
    (hids : (w.tests.map (fun t => t.id)).Nodup) :
    findTest (deleteAction cfg ctx testId s w).world.tests testId = none ∧
    (∀ r ∈ (deleteAction cfg ctx testId s w).world.results, r.testId ≠ testId) ∧
    (∀ r, r ∈ (deleteAction cfg ctx testId s w).world.results ↔
      r ∈ w.results ∧ r.testId ≠ testId) ∧
    List.Sublist (deleteAction cfg ctx testId s w).world.results w.results ∧
    (∀ other, other ≠ testId →
      findTest (deleteAction cfg ctx testId s w).world.tests other = findTest w.tests other) ∧
    (deleteAction cfg ctx testId s w).world.users = w.users ∧
    (deleteAction cfg ctx testId s w).session = s ∧
    downloadAction testId (deleteAction cfg ctx testId s w).world = [.testNotFound] ∧
    (∀ viewer, resultsAction cfg viewer testId (deleteAction cfg ctx testId s w).world =
      .testNotFound) ∧
    lookupUsers (deleteAction cfg ctx testId s w).world.users
      (deleteAction cfg ctx testId s w).world.results testId = [] := by
  rw [deleteAction_world cfg ctx testId s w test hfind hown]
  have hgone := findTest_deleteOne_same w.tests testId hids
  refine ⟨hgone, ?_, ?_, ?_, ?_, rfl, rfl, ?_, ?_, ?_⟩
  · intro r hr
    exact ((mem_deleteMany _ _ r).1 hr).2
  · intro r
    exact mem_deleteMany _ _ r
  · exact List.filter_sublist _
  · intro other hne
    exact findTest_deleteOne_other _ _ _ hne
  · exact downloadAction_not_found _ _ hgone
  · intro viewer
    unfold resultsAction
    simp only [hgone]
  · apply lookupUsers_of_no_results
    intro r hr
    exact ((mem_deleteMany _ _ r).1 hr).2

/-- C11, witness.  The owner (user 7) deletes the sample test: the test and its
result are gone and the export answers "test not found". -/
theorem delete_cascades_witness :
    findTest sampleStore.tests 1 = some sampleTest ∧
    (sampleStore.tests.map (fun t => t.id)).Nodup ∧
    (deleteAction sampleConfig (eventCtx 7 700 (.callbackQuery "delete_1".toList)) 1
      Session.fresh sampleStore).world.results = [] ∧
    downloadAction 1 (deleteAction sampleConfig (eventCtx 7 700
      (.callbackQuery "delete_1".toList)) 1 Session.fresh sampleStore).world =
        [.testNotFound] := by
  have hids : (sampleStore.tests.map (fun t => t.id)).Nodup := by decide
  have h := delete_cascades sampleConfig (eventCtx 7 700 (.callbackQuery "delete_1".toList)) 1
    Session.fresh sampleStore sampleTest rfl (Or.inl rfl) hids
  refine ⟨rfl, hids, ?_, h.2.2.2.2.2.2.2.1⟩
  rfl

/-- C11, counterexample.  After the owner has deleted the sample test, the
results export for its id does not end in the "no data" reply: it answers "test
not found". -/
theorem delete_then_export_not_found :
    downloadAction 1 (deleteAction sampleConfig (eventCtx 7 700
      (.callbackQuery "delete_1".toList)) 1 Session.fresh sampleStore).world ≠
        [.loading, .noResultsYet] := by
  have h : downloadAction 1 (deleteAction sampleConfig (eventCtx 7 700
      (.callbackQuery "delete_1".toList)) 1 Session.fresh sampleStore).world =
        [.testNotFound] := rfl
  rw [h]
  intro hc
  simp at hc

/-! ## C12: who may act on a test -/

theorem lookupUsers_sampleStore :
    lookupUsers sampleStore.users sampleStore.results 1 = [sampleJoined 42 50] := rfl

theorem downloadAction_sampleStore :
    downloadAction 1 sampleStore =
      [.loading, .document (buildReport sampleTest [sampleJoined 42 50]), .downloaded] := by
  unfold downloadAction
  have hfind : findTest sampleStore.tests 1 = some sampleTest := rfl
  simp only [hfind, lookupUsers_sampleStore, sortByScore, List.mergeSort_singleton]
  rfl

/-- C12, the defect.  For a user who is neither the owner of a test nor the
administrator, the edit action, the delete action and the results view refuse
and leave the session and the store as they are.  The download action has no
such check: user 99, who is neither the owner (7) of the sample test nor the
administrator (1), presses `download_1` and is sent the document, with the row
of user 42 and that score. -/
theorem download_has_no_owner_check :
    (∀ (cfg : Config) (moment : Option JStr → Option Int) (ctx : Ctx) (testId : Nat)
        (s : Session) (w : World) (test : Test),
      findTest w.tests testId = some test → test.createdBy ≠ ctx.fromId →
      cfg.adminId ≠ some ctx.fromId →
      editAction cfg moment ctx testId s w = { session := s, world := w, replies := [.notOwner] } ∧
      deleteAction cfg ctx testId s w = { session := s, world := w, replies := [.notOwner] } ∧
      resultsAction cfg ctx.fromId testId w = .notOwner) ∧
    sampleTest.createdBy ≠ 99 ∧ sampleConfig.adminId ≠ some 99 ∧
    decodePress "download_1".toList = some (.download 1) ∧
    (botStep sampleConfig (fun _ => none) (eventCtx 99 700 (.callbackQuery "download_1".toList))
        Session.fresh sampleStore).replies =
      [.download .loading,
       .download (.document (buildReport sampleTest [sampleJoined 42 50])),
       .download .downloaded] ∧
    (buildReport sampleTest [sampleJoined 42 50]).participants = 1 ∧
    ((buildReport sampleTest [sampleJoined 42 50]).rows.map (fun row => row.status)) =
      [Band.poor] := by
  refine ⟨?_, by decide, by decide, by decide, ?_, rfl, ?_⟩
  · intro cfg moment ctx testId s w test hfind hown hadm
    refine ⟨?_, ?_, ?_⟩
    · unfold editAction
      simp only [hfind]
      rw [if_pos ⟨hown, hadm⟩]
    · unfold deleteAction
      simp only [hfind]
      rw [if_pos ⟨hown, hadm⟩]
    · unfold resultsAction
      simp only [hfind]
      rw [if_pos ⟨hown, hadm⟩]
  · have hd : decodePress "download_1".toList = some (.download 1) := by decide
    simp only [botStep, Session.fresh, eventCtx, hd, downloadAction_sampleStore, List.map_cons,
      List.map_nil]
  · simp only [buildReport, rowsFrom, sampleJoined, List.map_cons, List.map_nil, bandOf]
    norm_num

/-! ## C13: the range of a stored score -/

theorem scoreOf_range (S K : List JStr) (hlen : S.length = K.length) (hpos : 0 < K.length) :
    0 ≤ scoreOf S K ∧ scoreOf S K ≤ 100 := by
  have hc : correctCount S K ≤ K.length := hlen ▸ correctCount_le S K
  have hK : (0 : ℚ) < (K.length : ℚ) := by exact_mod_cast hpos
  have hcq : (correctCount S K : ℚ) ≤ (K.length : ℚ) := by exact_mod_cast hc
  have h0 : (0 : ℚ) ≤ (correctCount S K : ℚ) := by exact_mod_cast Nat.zero_le _
  unfold scoreOf
  constructor
  · exact mul_nonneg (div_nonneg h0 hK.le) (by norm_num)
  · have h1 : (correctCount S K : ℚ) / (K.length : ℚ) ≤ 1 := (div_le_one hK).2 hcq
    linarith

/-- C13.  Every result stored by the answer handler has a score between 0 and
100: the correct count is at most the number of submitted tokens, which is the
length of the key, the divisor, and the key is not empty. -/
theorem accepted_score_range (ctx : Ctx) (text : JStr) (s : Session) (w : World) (test : Test)
    (h : Accepts ctx text s w test) :
    ∃ r, (answerHandler ctx text s w).world.results = w.results ++ [r] ∧
      0 ≤ r.score ∧ r.score ≤ 100 ∧
      correctCount (parseUserAnswers text) test.answers ≤ (parseUserAnswers text).length ∧
      (parseUserAnswers text).length = test.answers.length ∧ 0 < test.answers.length := by
  have hlen : (parseUserAnswers text).length = test.answers.length := by
    obtain ⟨_, _, _, _, _, hlen⟩ := h
    exact hlen
  have hpos : 0 < test.answers.length := by
    obtain ⟨_, _, _, _, hne, hl⟩ := h
    omega
  obtain ⟨h0, h100⟩ := scoreOf_range (parseUserAnswers text) test.answers hlen hpos
  exact ⟨_, by rw [answerHandler_accept ctx text s w test h], h0, h100,
    correctCount_le _ _, hlen, hpos⟩

/-- C13, witness.  The submission `1-a`, `2-b` against the sample key is stored
with a score between 0 and 100. -/
theorem accepted_score_range_witness :
    Accepts (sampleCtx "1-a\n2-b".toList) "1-a\n2-b".toList sampleTaking sampleWorld sampleTest ∧
    ∃ r, (answerHandler (sampleCtx "1-a\n2-b".toList) "1-a\n2-b".toList sampleTaking
        sampleWorld).world.results = sampleWorld.results ++ [r] ∧ 0 ≤ r.score ∧ r.score ≤ 100 := by
  have hacc : Accepts (sampleCtx "1-a\n2-b".toList) "1-a\n2-b".toList sampleTaking sampleWorld
      sampleTest := ⟨1, rfl, rfl, by decide, by decide, by decide⟩
  obtain ⟨r, hr, h0, h100, _⟩ :=
    accepted_score_range (sampleCtx "1-a\n2-b".toList) "1-a\n2-b".toList sampleTaking
      sampleWorld sampleTest hacc
  exact ⟨hacc, r, hr, h0, h100⟩

/-! ## C14: the stored score is not rounded -/

theorem rowsFrom_score (rs : List JoinedResult) :
    ∀ (start : Nat) (row : Row), row ∈ rowsFrom start rs →
      ∃ jr ∈ rs, row.score = toFixed1 jr.result.score ∧ row.status = bandOf jr.result.score := by
  induction rs with
  | nil => intro start row h; simp [rowsFrom] at h
  | cons r rest ih =>
    intro start row h
    unfold rowsFrom at h
    rcases List.mem_cons.1 h with h1 | h1
    · exact ⟨r, List.mem_cons_self _ _, by rw [h1], by rw [h1]⟩
    · obtain ⟨jr, hjr, hs⟩ := ih _ row h1
      exact ⟨jr, List.mem_cons_of_mem _ hjr, hs⟩

/-- C14, as amended.  For every accepted submission the stored score is the
percentage `100 * correctCount / totalCount` itself, not rounded; the one
decimal place is made where a score is printed: the rows of the export carry
`toFixed1` of the stored score, which is within one twentieth of it. -/
theorem stored_score_exact (ctx : Ctx) (text : JStr) (s : Session) (w : World) (test : Test)
    (h : Accepts ctx text s w test) :
    ∃ r, (answerHandler ctx text s w).world.results = w.results ++ [r] ∧
      r.score = 100 * (correctCount (parseUserAnswers text) test.answers : ℚ) /
        (test.answers.length : ℚ) ∧
      (answerHandler ctx text s w).replies =
        [.testResult r.score (correctCount (parseUserAnswers text) test.answers)
          (test.answers.length - correctCount (parseUserAnswers text) test.answers)] ∧
      |toFixed1 r.score - r.score| ≤ 1 / 20 ∧
      (∀ (start : Nat) (rs : List JoinedResult) (row : Row), row ∈ rowsFrom start rs →
        ∃ jr ∈ rs, row.score = toFixed1 jr.result.score) := by
  refine ⟨_, by rw [answerHandler_accept ctx text s w test h], ?_,
    by rw [answerHandler_accept ctx text s w test h], toFixed1_near _, ?_⟩
  · show scoreOf (parseUserAnswers text) test.answers = _
    unfold scoreOf
    ring
  · intro start rs row hrow
    obtain ⟨jr, hjr, hs, _⟩ := rowsFrom_score rs start row hrow
    exact ⟨jr, hjr, hs⟩

theorem sample3_accepts :
    Accepts (sampleCtx "1-a\n2-c\n3-d".toList) "1-a\n2-c\n3-d".toList sampleTaking sampleWorld3
      sampleTest3 := ⟨1, rfl, rfl, by decide, by decide, by decide⟩

theorem sample3_count :
    correctCount (parseUserAnswers "1-a\n2-c\n3-d".toList) sampleTest3.answers = 1 := by
  decide

/-- C14, witness.  One correct answer of three is stored as `100 / 3`. -/
theorem stored_score_exact_witness :
    Accepts (sampleCtx "1-a\n2-c\n3-d".toList) "1-a\n2-c\n3-d".toList sampleTaking sampleWorld3
      sampleTest3 ∧
    ∃ r, (answerHandler (sampleCtx "1-a\n2-c\n3-d".toList) "1-a\n2-c\n3-d".toList sampleTaking
        sampleWorld3).world.results = sampleWorld3.results ++ [r] ∧ r.score = 100 / 3 := by
  obtain ⟨r, hr, hs, _⟩ :=
    stored_score_exact (sampleCtx "1-a\n2-c\n3-d".toList) "1-a\n2-c\n3-d".toList sampleTaking
      sampleWorld3 sampleTest3 sample3_accepts
  refine ⟨sample3_accepts, r, hr, ?_⟩
  rw [hs, sample3_count]
  have hl : sampleTest3.answers.length = 3 := rfl
  rw [hl]
  norm_num

/-- C14, counterexample.  One correct answer of three: the stored score is
`100 / 3`, which is not 33.3; only its printed form `toFixed1` is 33.3. -/
theorem stored_score_not_one_decimal :
    ∃ r, (answerHandler (sampleCtx "1-a\n2-c\n3-d".toList) "1-a\n2-c\n3-d".toList sampleTaking
        sampleWorld3).world.results = [r] ∧
      r.score = 100 / 3 ∧ r.score ≠ 333 / 10 ∧ toFixed1 r.score = 333 / 10 := by
  refine ⟨_, by rw [answerHandler_accept _ _ _ _ _ sample3_accepts]; rfl, ?_⟩
  have hs : scoreOf (parseUserAnswers "1-a\n2-c\n3-d".toList) sampleTest3.answers = 100 / 3 := by
    unfold scoreOf
    rw [sample3_count]
    have hl : sampleTest3.answers.length = 3 := rfl
    rw [hl]
    norm_num
  show scoreOf _ _ = 100 / 3 ∧ scoreOf _ _ ≠ 333 / 10 ∧ toFixed1 (scoreOf _ _) = 333 / 10
  rw [hs]
  refine ⟨rfl, by norm_num, ?_⟩
  unfold toFixed1
  rw [if_neg (by norm_num)]
  have hf : ⌊(100 / 3 : ℚ) * 10 + 1 / 2⌋ = 333 := by
    rw [Int.floor_eq_iff]
    constructor <;> norm_num
  rw [hf]
  norm_num

/-! ## C20: the teacher gate reads the static lists only -/

theorem setRole_sets (users : List User) (telegramId : Int) (role : Role) (now : Int)
    (h : ∃ u ∈ users, u.telegramId = telegramId) :
    ∃ u ∈ setRole users telegramId role now, u.telegramId = telegramId ∧ u.role = role := by
  induction users with
  | nil => obtain ⟨u, hu, _⟩ := h; simp at hu
  | cons a rest ih =>
    unfold setRole
    by_cases ha : (a.telegramId == telegramId) = true
    · rw [if_pos ha]
      exact ⟨_, List.mem_cons_self _ _, by simpa using ha, rfl⟩
    · rw [if_neg ha]
      obtain ⟨u, hu, hid⟩ := h
      rcases List.mem_cons.1 hu with h1 | h1
      · exfalso
        apply ha
        rw [← h1]
        simpa using hid
      · obtain ⟨u2, hu2, h2⟩ := ih ⟨u, h1, hid⟩
        exact ⟨u2, List.mem_cons_of_mem _ hu2, h2⟩

theorem createTestCommand_refuses (cfg : Config) (moment : Option JStr → Option Int) (ctx : Ctx)
    (s : Session) (w : World) (h : isTeacher cfg ctx.fromId = false) :
    createTestCommand cfg moment ctx s w = { session := s, world := w, replies := [.notTeacher] } := by
  unfold createTestCommand
  simp [h]

/-- C20.  The function `isTeacher` answers from `TEACHER_IDS` and `ADMIN_ID`
alone.  The gate of test authoring (the menu handler and step 1 of the scene)
gives the same session and the same replies on any two stores, so the stored
roles have no part in it.  A user outside the static lists is refused also when
the stored role is `TEACHER`, as after the role update of the teacher collector:
the collector, run for the administrator on the identity of that user, stores
the role `TEACHER`, and on the store it leaves the gate still refuses. -/
theorem teacher_gate_ignores_role (cfg : Config) (moment : Option JStr → Option Int) :
    (∀ id, isTeacher cfg id = true ↔ id ∈ cfg.teacherIds ∨ cfg.adminId = some id) ∧
    (∀ (ctx : Ctx) (s : Session) (w w2 : World),
      (createTestStep1 cfg ctx s w).session = (createTestStep1 cfg ctx s w2).session ∧
      (createTestStep1 cfg ctx s w).replies = (createTestStep1 cfg ctx s w2).replies ∧
      (createTestCommand cfg moment ctx s w).session =
        (createTestCommand cfg moment ctx s w2).session ∧
      (createTestCommand cfg moment ctx s w).replies =
        (createTestCommand cfg moment ctx s w2).replies) ∧
    (∀ (ctx : Ctx) (s : Session) (w : World), ctx.fromId ∉ cfg.teacherIds →
      cfg.adminId ≠ some ctx.fromId →
      createTestCommand cfg moment ctx s w =
        { session := s, world := w, replies := [.notTeacher] } ∧
      createTestStep1 cfg ctx s w =
        { session := s.leave, world := w, replies := [.notTeacher] }) ∧
    (∀ (admin : Ctx) (text : JStr) (sa : Session) (w : World) (n : Int) (ctx : Ctx)
        (s : Session),
      cfg.adminId = some admin.fromId → sa.awaitingTeacherId = true →
      parseInt (some text) = some n → (∃ u ∈ w.users, u.telegramId = n) →
      ctx.fromId = n → n ∉ cfg.teacherIds → cfg.adminId ≠ some n →
      (∃ u ∈ (teacherHandler cfg admin text sa w).world.users,
        u.telegramId = n ∧ u.role = .TEACHER) ∧
      createTestCommand cfg moment ctx s (teacherHandler cfg admin text sa w).world =
        { session := s, world := (teacherHandler cfg admin text sa w).world,
          replies := [.notTeacher] }) := by
  have hiff : ∀ id, isTeacher cfg id = true ↔ id ∈ cfg.teacherIds ∨ cfg.adminId = some id := by
    intro id
    simp [isTeacher]
  have hfalse : ∀ id, id ∉ cfg.teacherIds → cfg.adminId ≠ some id → isTeacher cfg id = false := by
    intro id h1 h2
    cases hb : isTeacher cfg id with
    | false => rfl
    | true =>
      rcases (hiff id).1 hb with h | h
      · exact absurd h h1
      · exact absurd h h2
  refine ⟨hiff, ?_, ?_, ?_⟩
  · intro ctx s w w2
    refine ⟨?_, ?_, ?_, ?_⟩
    · unfold createTestStep1; split <;> rfl
    · unfold createTestStep1; split <;> rfl
    · unfold createTestCommand enterScene
      split
      · rfl
      · simp only [sceneStep]
        unfold createTestStep1; split <;> rfl
    · unfold createTestCommand enterScene
      split
      · rfl
      · simp only [sceneStep]
        unfold createTestStep1; split <;> rfl
  · intro ctx s w h1 h2
    have hf := hfalse ctx.fromId h1 h2
    refine ⟨createTestCommand_refuses cfg moment ctx s w hf, ?_⟩
    unfold createTestStep1
    simp [hf]
  · intro admin text sa w n ctx s hadm haw hparse hex hctx h1 h2
    have hw : (teacherHandler cfg admin text sa w).world =
        { w with users := setRole w.users n .TEACHER admin.now } := by
      unfold teacherHandler
      rw [if_neg (not_not.2 hadm), if_pos haw]
      simp only [hparse]
    refine ⟨?_, ?_⟩
    · rw [hw]
      exact setRole_sets w.users n .TEACHER admin.now hex
    · apply createTestCommand_refuses
      rw [hctx]
      exact hfalse n h1 h2

/-! ## C15: the dialog kinds of a session -/

/-- What every step of every scene leaves alone: the two flags of the teacher
collectors and `editingTest`; `currentTest` is left alone by the steps of
registration and test authoring. -/
theorem sceneStep_frame (cfg : Config) (moment : Option JStr → Option Int) (name : SceneName)
    (ctx : Ctx) (s : Session) (w : World) :
    (sceneStep cfg moment name ctx s w).session.awaitingTeacherId = s.awaitingTeacherId ∧
    (sceneStep cfg moment name ctx s w).session.awaitingRemoveTeacherId =
      s.awaitingRemoveTeacherId ∧
    (sceneStep cfg moment name ctx s w).session.editingTest = s.editingTest ∧
    (name ≠ .editTest → (sceneStep cfg moment name ctx s w).session.currentTest = s.currentTest) ∧
    (s.currentTest ≠ none → (sceneStep cfg moment name ctx s w).session.currentTest ≠ none) := by
  cases name with
  | registration =>
    rcases hc : s.cursor with _ | _ | _ | _ | n <;> simp only [sceneStep, hc]
    · unfold registrationStep1; split <;> simp [Session.next]
    · unfold registrationStep2; split <;> simp [Session.next]
    · unfold registrationStep3; split <;> simp [Session.next]
    · unfold registrationStep4
      split
      · simp
      · split
        · simp
        · simp only []
          split <;> simp [Session.leave]
    · simp [Session.leave]
  | createTest =>
    rcases hc : s.cursor with _ | _ | _ | _ | n <;> simp only [sceneStep, hc]
    · unfold createTestStep1; split <;> simp [Session.next, Session.leave]
    · unfold createTestStep2; split <;> simp [Session.next]
    · unfold createTestStep3
      split
      · simp
      · simp only []
        split <;> simp [Session.next]
    · unfold createTestStep4
      split
      · simp [Session.leave]
      · split
        · simp
        · simp only []
          split <;> simp [Session.leave]
    · simp [Session.leave]
  | editTest =>
    rcases hc : s.cursor with _ | _ | _ | n <;> simp only [sceneStep, hc]
    · unfold editTestStep1; split <;> simp [Session.next, Session.leave]
    · unfold editTestStep2
      split
      · simp
      · split
        · simp [Session.leave]
        · split
          · simp
          · split <;> simp [Session.next]
    · unfold editTestStep3
      split <;> simp [Session.leave]
    · simp [Session.leave]

/-- C15, counterexample.  From a new session the administrator presses
`add_teacher` and then `remove_teacher`: both flags are set.  A teacher presses
`take_1` and then starts test authoring: the scene is active and `currentTest` is
set.  In both reachable sessions two dialog kinds are set. -/
theorem two_dialog_kinds_set :
    (botRun sampleConfig (fun _ => none) (Session.fresh, sampleWorld)
      sampleAdminPresses).1.awaitingTeacherId = true ∧
    (botRun sampleConfig (fun _ => none) (Session.fresh, sampleWorld)
      sampleAdminPresses).1.awaitingRemoveTeacherId = true ∧
    activeKinds (botRun sampleConfig (fun _ => none) (Session.fresh, sampleWorld)
      sampleAdminPresses).1 = 2 ∧
    (botRun sampleConfig (fun _ => none) (Session.fresh, sampleWorld)
      sampleTakeThenAuthor).1.scene = some .createTest ∧
    (botRun sampleConfig (fun _ => none) (Session.fresh, sampleWorld)
      sampleTakeThenAuthor).1.currentTest = some (.testId 1) ∧
    activeKinds (botRun sampleConfig (fun _ => none) (Session.fresh, sampleWorld)
      sampleTakeThenAuthor).1 = 2 := by
  refine ⟨?_, ?_, ?_, ?_, ?_, ?_⟩ <;> decide

/-- C15, as amended.  A session has at most one active wizard scene (the scene
is one field), and while a scene is active every update of the user is handled
by the current step of that scene alone: no action and no text collector runs.
That step leaves `awaitingTeacherId` and `awaitingRemoveTeacherId` as they are,
and the steps of registration and test authoring leave `currentTest` as it is;
a flag set before stays set next to the scene.  Starting a scene does not clear
the flags either. -/
theorem scene_runs_alone (cfg : Config) (moment : Option JStr → Option Int) (ctx : Ctx)
    (s : Session) (w : World) (name : SceneName) (h : s.scene = some name) :
    (botStep cfg moment ctx s w).session = (sceneStep cfg moment name ctx s w).session ∧
    (botStep cfg moment ctx s w).world = (sceneStep cfg moment name ctx s w).world ∧
    (botStep cfg moment ctx s w).session.awaitingTeacherId = s.awaitingTeacherId ∧
    (botStep cfg moment ctx s w).session.awaitingRemoveTeacherId = s.awaitingRemoveTeacherId ∧
    (name ≠ .editTest → (botStep cfg moment ctx s w).session.currentTest = s.currentTest) ∧
    (s.currentTest ≠ none → (botStep cfg moment ctx s w).session.currentTest ≠ none) ∧
    (∀ (entered : SceneName) (s0 : Session) (w0 : World),
      (enterScene cfg moment entered ctx s0 w0).session.awaitingTeacherId =
        s0.awaitingTeacherId ∧
      (enterScene cfg moment entered ctx s0 w0).session.awaitingRemoveTeacherId =
        s0.awaitingRemoveTeacherId ∧
      (s0.currentTest ≠ none →
        (enterScene cfg moment entered ctx s0 w0).session.currentTest ≠ none)) := by
  have hb : botStep cfg moment ctx s w = (sceneStep cfg moment name ctx s w).toBot := by
    unfold botStep
    rw [h]
  obtain ⟨f1, f2, _, f4, f5⟩ := sceneStep_frame cfg moment name ctx s w
  rw [hb]
  refine ⟨rfl, rfl, f1, f2, f4, f5, ?_⟩
  intro entered s0 w0
  obtain ⟨g1, g2, _, _, g5⟩ :=
    sceneStep_frame cfg moment entered ctx { s0 with scene := some entered, cursor := 0 } w0
  exact ⟨g1, g2, g5⟩

/-- C15, witness.  In step 2 of test authoring with `currentTest` set, a title
text is handled by the scene and `currentTest` stays set. -/
theorem scene_runs_alone_witness :
    sampleAuthoringWhileTaking.scene = some .createTest ∧
    (botStep sampleConfig (fun _ => none) (eventCtx 7 30 (.text "Algebra".toList))
      sampleAuthoringWhileTaking sampleWorld).session.currentTest = some (.testId 1) ∧
    (botStep sampleConfig (fun _ => none) (eventCtx 7 30 (.text "Algebra".toList))
      sampleAuthoringWhileTaking sampleWorld).session.cursor = 2 := by
  have h := scene_runs_alone sampleConfig (fun _ => none) (eventCtx 7 30 (.text "Algebra".toList))
    sampleAuthoringWhileTaking sampleWorld .createTest rfl
  exact ⟨rfl, h.2.2.2.2.1 (by decide), by decide⟩

/-! ## C16: what a finished dialog leaves in the session -/

/-- C16, the defect.  The call `ctx.scene.leave()` drops the scene and the
cursor only, and no step of a scene clears `editingTest` or a set `currentTest`.
After a teacher has edited the title of the sample test (dialog finished), the
session still holds `editingTest`, `editChoice` and, in `currentTest`, the
document read in step 1; the next text of the teacher is taken by the answer
handler against that stale document and answered with the generic error, the
session as stale as before.  The same fields stay after the cancel word; after
test authoring the title and the answers stay, and after a registration the two
names stay. -/
theorem finished_dialog_leaves_fields :
    (∀ s : Session, s.leave.firstName = s.firstName ∧ s.leave.lastName = s.lastName ∧
      s.leave.testTitle = s.testTitle ∧ s.leave.testAnswers = s.testAnswers ∧
      s.leave.editingTest = s.editingTest ∧ s.leave.editChoice = s.editChoice ∧
      s.leave.currentTest = s.currentTest) ∧
    (∀ (cfg : Config) (moment : Option JStr → Option Int) (name : SceneName) (ctx : Ctx)
        (s : Session) (w : World),
      (sceneStep cfg moment name ctx s w).session.editingTest = s.editingTest ∧
      (s.currentTest ≠ none → (sceneStep cfg moment name ctx s w).session.currentTest ≠ none)) ∧
    (botRun sampleConfig (fun _ => none) (Session.fresh, sampleWorld) sampleEditRun).1 =
      { Session.fresh with editingTest := some 1, editChoice := some 1,
                           currentTest := some (.testDoc sampleTest) } ∧
    (botRun sampleConfig (fun _ => none) (Session.fresh, sampleWorld) sampleEditRun).2.tests =
      [{ sampleTest with title := some "Yangi mavzu".toList, updatedAt := 30 }] ∧
    (botStep sampleConfig (fun _ => none) (eventCtx 7 40 (.text "salom".toList))
      (botRun sampleConfig (fun _ => none) (Session.fresh, sampleWorld) sampleEditRun).1
      (botRun sampleConfig (fun _ => none) (Session.fresh, sampleWorld) sampleEditRun).2).replies =
      [.reply .genericError] ∧
    (botStep sampleConfig (fun _ => none) (eventCtx 7 40 (.text "salom".toList))
      (botRun sampleConfig (fun _ => none) (Session.fresh, sampleWorld) sampleEditRun).1
      (botRun sampleConfig (fun _ => none) (Session.fresh, sampleWorld) sampleEditRun).2).session =
      (botRun sampleConfig (fun _ => none) (Session.fresh, sampleWorld) sampleEditRun).1 ∧
    (botRun sampleConfig (fun _ => none) (Session.fresh, sampleWorld) sampleEditCancel).1 =
      { Session.fresh with editingTest := some 1, currentTest := some (.testDoc sampleTest) } ∧
    (botRun sampleConfig (fun _ => some 5000) (Session.fresh, emptyWorld) sampleAuthoringRun).1 =
      { Session.fresh with testTitle := some "Algebra".toList,
                           testAnswers := some ["1-a".toList, "2-b".toList] } ∧
    (botRun sampleConfig (fun _ => none) (Session.fresh, emptyWorld) sampleRegistrationRun).1 =
      { Session.fresh with firstName := some "Ali".toList, lastName := some "Valiyev".toList } ∧
    (botRun sampleConfig (fun _ => none) (Session.fresh, emptyWorld)
      sampleRegistrationRun).2.users.map (fun u => u.telegramId) = [5] := by
  refine ⟨fun s => ⟨rfl, rfl, rfl, rfl, rfl, rfl, rfl⟩, ?_, by decide, by decide, ?_, by decide,
    by decide, by decide, by decide, by decide⟩
  · intro cfg moment name ctx s w
    obtain ⟨_, _, f3, _, f5⟩ := sceneStep_frame cfg moment name ctx s w
    exact ⟨f3, f5⟩
  · rfl

/-! ## C17: steps and invalid input -/

/-- C17, the defect.  Steps 2 and 3 of the registration test `ctx.message?.text`
and prompt again on a message without text, the session as it was.  Step 2 of
test authoring has no such test: on a message without text (a photo, say) it
stores the undefined title and moves to step 3.  Step 3 of the edit dialog with
choice 1 does the same: on a message without text it writes the undefined title
into the test and ends the dialog; with choice 2 it ends the dialog with the
generic error instead of prompting again. -/
theorem title_step_takes_non_text :
    (∀ (ctx : Ctx) (s : Session) (w : World), ctx.incoming = .otherMessage →
      registrationStep2 ctx s w =
        { session := s, world := w, replies := [.firstNameMustBeText] } ∧
      registrationStep3 ctx s w =
        { session := s, world := w, replies := [.lastNameMustBeText] }) ∧
    (∀ (ctx : Ctx) (s : Session) (w : World), ctx.incoming = .otherMessage →
      createTestStep2 ctx s w =
        { session := { s with testTitle := none, cursor := s.cursor + 1 }, world := w,
          replies := [.askAnswers] }) ∧
    (botStep sampleConfig (fun _ => none) (eventCtx 7 20 .otherMessage) sampleTitleStep
      emptyWorld).session = { sampleTitleStep with cursor := 2 } ∧
    (editTestStep3 (fun _ => none) (eventCtx 7 20 .otherMessage) (sampleEditing 1)
      sampleWorld).world.tests = [{ sampleTest with title := none, updatedAt := 20 }] ∧
    (editTestStep3 (fun _ => none) (eventCtx 7 20 .otherMessage) (sampleEditing 1)
      sampleWorld).session.scene = none ∧
    editTestStep3 (fun _ => none) (eventCtx 7 20 .otherMessage) (sampleEditing 2) sampleWorld =
      { session := (sampleEditing 2).leave, world := sampleWorld, replies := [.genericError] } := by
  refine ⟨?_, ?_, by decide, by decide, by decide, by decide⟩
  · intro ctx s w h
    constructor
    · simp [registrationStep2, h, Incoming.messageText, truthy]
    · simp [registrationStep3, h, Incoming.messageText, truthy]
  · intro ctx s w h
    simp [createTestStep2, h, Incoming.hasMessage, Incoming.messageText, Session.next]

/-! ## C18: the collector of the teacher identity -/

theorem answerHandler_frame (ctx : Ctx) (text : JStr) (s : Session) (w : World) :
    (answerHandler ctx text s w).world.users = w.users ∧
    (answerHandler ctx text s w).session.awaitingTeacherId = s.awaitingTeacherId ∧
    (answerHandler ctx text s w).session.awaitingRemoveTeacherId = s.awaitingRemoveTeacherId := by
  unfold answerHandler
  split
  · simp
  · split
    · split
      · simp
      · split
        · simp
        · simp only []
          split
          · simp
          · split <;> simp
    · simp
    · simp

theorem createTestStep1_world (cfg : Config) (ctx : Ctx) (s : Session) (w : World) :
    (createTestStep1 cfg ctx s w).world = w := by
  unfold createTestStep1
  split <;> rfl

theorem registrationStep1_world (ctx : Ctx) (s : Session) (w : World) :
    (registrationStep1 ctx s w).world = w := by
  unfold registrationStep1
  split <;> rfl

theorem enterScene_frame (cfg : Config) (moment : Option JStr → Option Int) (name : SceneName)
    (ctx : Ctx) (s : Session) (w : World) :
    (enterScene cfg moment name ctx s w).session.awaitingTeacherId = s.awaitingTeacherId ∧
    (enterScene cfg moment name ctx s w).session.awaitingRemoveTeacherId =
      s.awaitingRemoveTeacherId := by
  unfold enterScene
  obtain ⟨g1, g2, _⟩ := sceneStep_frame cfg moment name ctx _ w
  exact ⟨g1, g2⟩

/-- A text message outside a scene changes neither the users nor the two flags
of the teacher collectors. -/
theorem botStep_text_frame (cfg : Config) (moment : Option JStr → Option Int) (ctx : Ctx)
    (text : JStr) (s : Session) (w : World) (hin : ctx.incoming = .text text)
    (hsc : s.scene = none) :
    (botStep cfg moment ctx s w).world.users = w.users ∧
    (botStep cfg moment ctx s w).session.awaitingTeacherId = s.awaitingTeacherId ∧
    (botStep cfg moment ctx s w).session.awaitingRemoveTeacherId = s.awaitingRemoveTeacherId := by
  unfold botStep
  simp only [hsc, hin]
  split
  · unfold startCommand
    split
    · obtain ⟨g1, g2⟩ := enterScene_frame cfg moment .registration ctx s w
      refine ⟨?_, g1, g2⟩
      simp only [Outcome.toBot, enterScene, sceneStep]
      rw [registrationStep1_world]
    · exact ⟨rfl, rfl, rfl⟩
  · split
    · unfold createTestCommand
      split
      · exact ⟨rfl, rfl, rfl⟩
      · obtain ⟨g1, g2⟩ := enterScene_frame cfg moment .createTest ctx s w
        refine ⟨?_, g1, g2⟩
        simp only [Outcome.toBot, enterScene, sceneStep]
        rw [createTestStep1_world]
    · split
      · exact ⟨rfl, rfl, rfl⟩
      · exact answerHandler_frame ctx text s w

/-- C18, the defect.  The collector of the teacher identity (the second
`bot.on('text')`) would do what is claimed: run for the administrator with
`awaitingTeacherId` set on the text `42`, it stores the role `TEACHER` for user
42 and clears the flag.  The chain never runs it: the answer handler, registered
before it, takes every text and does not call `next`.  So for every text message
outside a scene the users and both flags are as before; the administrator's
text `42` changes nothing and gets no reply, and the flag stays set. -/
theorem teacher_collector_not_reached :
    (teacherHandler sampleConfig (eventCtx 1 30 (.text "42".toList)) "42".toList
      sampleAwaitingTeacher sampleUsers).world.users.map (fun u => (u.telegramId, u.role)) =
      [(42, Role.TEACHER)] ∧
    (teacherHandler sampleConfig (eventCtx 1 30 (.text "42".toList)) "42".toList
      sampleAwaitingTeacher sampleUsers).session.awaitingTeacherId = false ∧
    (botStep sampleConfig (fun _ => none) (eventCtx 1 30 (.text "42".toList))
      sampleAwaitingTeacher sampleUsers).world.users.map (fun u => (u.telegramId, u.role)) =
      [(42, Role.STUDENT)] ∧
    (botStep sampleConfig (fun _ => none) (eventCtx 1 30 (.text "42".toList))
      sampleAwaitingTeacher sampleUsers).session = sampleAwaitingTeacher ∧
    (botStep sampleConfig (fun _ => none) (eventCtx 1 30 (.text "42".toList))
      sampleAwaitingTeacher sampleUsers).replies = [] ∧
    (∀ (cfg : Config) (moment : Option JStr → Option Int) (ctx : Ctx) (text : JStr)
        (s : Session) (w : World), ctx.incoming = .text text → s.scene = none →
      (botStep cfg moment ctx s w).world.users = w.users ∧
      (botStep cfg moment ctx s w).session.awaitingTeacherId = s.awaitingTeacherId ∧
      (botStep cfg moment ctx s w).session.awaitingRemoveTeacherId =
        s.awaitingRemoveTeacherId) := by
  refine ⟨by decide, by decide, by decide, by decide, rfl, ?_⟩
  intro cfg moment ctx text s w hin hsc
  exact botStep_text_frame cfg moment ctx text s w hin hsc

/-- An instance of the last part of C20: the collector, run for the administrator
on the text `42`, stores the role `TEACHER` for user 42, who is in no static
list; the authoring gate refuses user 42 on that store. -/
theorem teacher_gate_example :
    (teacherHandler sampleConfig (eventCtx 1 30 (.text "42".toList)) "42".toList
      sampleAwaitingTeacher sampleUsers).world.users.map (fun u => (u.telegramId, u.role)) =
      [(42, Role.TEACHER)] ∧
    (createTestCommand sampleConfig (fun _ => none)
      (eventCtx 42 40 (.text "📝 Test yaratish".toList)) Session.fresh
      (teacherHandler sampleConfig (eventCtx 1 30 (.text "42".toList)) "42".toList
        sampleAwaitingTeacher sampleUsers).world).replies = [.notTeacher] := by
  constructor <;> decide

/-! ## C21: the counts column of the export -/

theorem sceneStep_results (cfg : Config) (moment : Option JStr → Option Int) (name : SceneName)
    (ctx : Ctx) (s : Session) (w : World) :
    (sceneStep cfg moment name ctx s w).world.results = w.results := by
  cases name with
  | registration =>
    rcases hc : s.cursor with _ | _ | _ | _ | n <;> simp only [sceneStep, hc]
    · unfold registrationStep1; split <;> rfl
    · unfold registrationStep2; split <;> rfl
    · unfold registrationStep3; split <;> rfl
    · unfold registrationStep4
      split
      · rfl
      · split
        · rfl
        · simp only []
          split <;> rfl
  | createTest =>
    rcases hc : s.cursor with _ | _ | _ | _ | n <;> simp only [sceneStep, hc]
    · unfold createTestStep1; split <;> rfl
    · unfold createTestStep2; split <;> rfl
    · unfold createTestStep3
      split
      · rfl
      · simp only []
        split <;> rfl
    · unfold createTestStep4
      split
      · rfl
      · split
        · rfl
        · simp only []
          split <;> rfl
  | editTest =>
    rcases hc : s.cursor with _ | _ | _ | n <;> simp only [sceneStep, hc]
    · unfold editTestStep1; split <;> rfl
    · unfold editTestStep2
      split
      · rfl
      · split
        · rfl
        · split
          · rfl
          · split <;> rfl
    · unfold editTestStep3
      split <;> rfl

theorem enterScene_results (cfg : Config) (moment : Option JStr → Option Int) (name : SceneName)
    (ctx : Ctx) (s : Session) (w : World) :
    (enterScene cfg moment name ctx s w).world.results = w.results := by
  unfold enterScene
  exact sceneStep_results cfg moment name ctx _ w

/-- The results after the answer handler: the results before, and at most one
new result, which carries no counts. -/
theorem answerHandler_noCounts (ctx : Ctx) (text : JStr) (s : Session) (w : World) :
    ∀ r ∈ (answerHandler ctx text s w).world.results,
      r ∈ w.results ∨ (r.correctAnswers = none ∧ r.wrongAnswers = none) := by
  intro r hr
  by_cases hacc : ∃ test, Accepts ctx text s w test
  · obtain ⟨test, hacc⟩ := hacc
    rw [answerHandler_accept ctx text s w test hacc] at hr
    rcases List.mem_append.1 hr with h | h
    · exact Or.inl h
    · rw [List.mem_singleton] at h
      rw [h]
      exact Or.inr ⟨rfl, rfl⟩
  · rw [(answerHandler_reject ctx text s w hacc).1] at hr
    exact Or.inl hr

/-- One update through the chain adds no result that carries counts. -/
theorem botStep_noCounts (cfg : Config) (moment : Option JStr → Option Int) (ctx : Ctx)
    (s : Session) (w : World) (h : NoCounts w.results) :
    NoCounts (botStep cfg moment ctx s w).world.results := by
  have same : ∀ w2 : World, w2.results = w.results → NoCounts w2.results := by
    intro w2 h2
    rw [h2]
    exact h
  unfold botStep
  split
  · exact same _ (sceneStep_results cfg moment _ ctx s w)
  · split
    · split
      · unfold startCommand
        split
        · exact same _ (enterScene_results cfg moment .registration ctx s w)
        · exact h
      · split
        · unfold createTestCommand
          split
          · exact h
          · exact same _ (enterScene_results cfg moment .createTest ctx s w)
        · split
          · exact h
          · intro r hr
            rcases answerHandler_noCounts ctx _ s w r hr with h1 | h1
            · exact h r h1
            · exact h1
    · split
      · exact h
      · unfold deleteAction
        split
        · exact h
        · split
          · exact h
          · intro r hr
            exact h r ((mem_deleteMany _ _ r).1 hr).1
      · unfold editAction
        split
        · exact h
        · split
          · exact h
          · exact same _ (enterScene_results cfg moment .editTest ctx _ w)
      · exact h
      · exact same _ (congrArg World.results (takeAction_world ctx _ s w))
      · unfold addTeacherAction
        split <;> exact h
      · unfold removeTeacherAction
        split <;> exact h
      · unfold manageAction
        split <;> exact h
      · exact h
    · exact h
    · exact h

theorem botRun_noCounts (cfg : Config) (moment : Option JStr → Option Int)
    (updates : List Ctx) :
    ∀ (s : Session) (w : World), NoCounts w.results →
      NoCounts (botRun cfg moment (s, w) updates).2.results := by
  induction updates with
  | nil => intro s w h; exact h
  | cons ctx rest ih =>
    intro s w h
    exact ih _ _ (botStep_noCounts cfg moment ctx s w h)

theorem rowsFrom_counts (rs : List JoinedResult) :
    ∀ (start : Nat) (row : Row), row ∈ rowsFrom start rs →
      ∃ jr ∈ rs, row.correctAnswers = jr.result.correctAnswers.getD 0 ∧
        row.wrongAnswers = jr.result.wrongAnswers.getD 0 := by
  induction rs with
  | nil => intro start row h; simp [rowsFrom] at h
  | cons r rest ih =>
    intro start row h
    unfold rowsFrom at h
    rcases List.mem_cons.1 h with h1 | h1
    · exact ⟨r, List.mem_cons_self _ _, by rw [h1], by rw [h1]⟩
    · obtain ⟨jr, hjr, hs⟩ := ih _ row h1
      exact ⟨jr, List.mem_cons_of_mem _ hjr, hs⟩

theorem mem_lookupUsers (users : List User) (results : List Result) (testId : Nat)
    (jr : JoinedResult) (h : jr ∈ lookupUsers users results testId) : jr.result ∈ results := by
  unfold lookupUsers at h
  rw [List.mem_flatten] at h
  obtain ⟨l, hl, hjr⟩ := h
  obtain ⟨r, hr, rfl⟩ := List.mem_map.1 hl
  obtain ⟨u, _, rfl⟩ := List.mem_map.1 hjr
  exact (List.mem_filter.1 hr).1

theorem mem_sortByScore (rs : List JoinedResult) (jr : JoinedResult) :
    jr ∈ sortByScore rs ↔ jr ∈ rs := by
  unfold sortByScore
  exact (List.mergeSort_perm rs _).mem_iff

theorem zero_column (row : Row) (hc : row.correctAnswers = 0) (hw : row.wrongAnswers = 0) :
    row.answersColumn = "0/0".toList := by
  unfold Row.answersColumn
  rw [hc, hw]
  rfl

theorem sampleSubmission_world :
    (botRun sampleConfig (fun _ => none) (Session.fresh, sampleTakingStore) sampleSubmission).2 =
      { sampleTakingStore with results := [sampleSubmitted.result] } := rfl

/-- C21.  The result stored by the answer handler for an accepted submission
carries neither `correctAnswers` nor `wrongAnswers`, whatever the correct count
of the submission is, and on a store whose results carry neither field every
update of the bot leaves such a store.  On such a store every row of every
export document has the counts 0 and 0, that is the column `0/0`.  So after user
42 has answered the sample test with one right and one wrong answer (the reply
reports 1 and 1), the export of the test has one row and its column is `0/0`. -/
theorem export_counts_column_is_zero :
    (∀ (ctx : Ctx) (text : JStr) (s : Session) (w : World) (test : Test),
      Accepts ctx text s w test →
      ∃ r, (answerHandler ctx text s w).world.results = w.results ++ [r] ∧
        r.correctAnswers = none ∧ r.wrongAnswers = none ∧
        (answerHandler ctx text s w).replies =
          [.testResult r.score (correctCount (parseUserAnswers text) test.answers)
            (test.answers.length - correctCount (parseUserAnswers text) test.answers)]) ∧
    (∀ (cfg : Config) (moment : Option JStr → Option Int) (updates : List Ctx) (s : Session)
        (w : World), NoCounts w.results →
      NoCounts (botRun cfg moment (s, w) updates).2.results) ∧
    (∀ (testId : Nat) (w : World) (report : Report), NoCounts w.results →
      DownloadReply.document report ∈ downloadAction testId w →
      ∀ row ∈ report.rows, row.correctAnswers = 0 ∧ row.wrongAnswers = 0 ∧
        row.answersColumn = "0/0".toList) ∧
    correctCount (parseUserAnswers "1-a\n2-b".toList) sampleTest.answers = 1 ∧
    sampleTest.answers.length - correctCount (parseUserAnswers "1-a\n2-b".toList)
      sampleTest.answers = 1 ∧
    downloadAction 1 (botRun sampleConfig (fun _ => none)
        (Session.fresh, sampleTakingStore) sampleSubmission).2 =
      [.loading, .document (buildReport sampleTest [sampleSubmitted]), .downloaded] ∧
    (buildReport sampleTest [sampleSubmitted]).rows.map (fun row => row.answersColumn) =
      ["0/0".toList] := by
  have hrows : ∀ (testId : Nat) (w : World) (report : Report), NoCounts w.results →
      DownloadReply.document report ∈ downloadAction testId w →
      ∀ row ∈ report.rows, row.correctAnswers = 0 ∧ row.wrongAnswers = 0 ∧
        row.answersColumn = "0/0".toList := by
    intro testId w report hno hmem row hrow
    unfold downloadAction at hmem
    split at hmem
    · simp at hmem
    · simp only [] at hmem
      split at hmem
      · simp at hmem
      · simp only [List.mem_cons, List.mem_singleton, DownloadReply.document.injEq,
          List.not_mem_nil, or_false, false_or, reduceCtorEq] at hmem
        rw [hmem] at hrow
        obtain ⟨jr, hjr, hc, hw⟩ := rowsFrom_counts _ 0 row hrow
        have hres := mem_lookupUsers _ _ _ jr ((mem_sortByScore _ jr).1 hjr)
        obtain ⟨h1, h2⟩ := hno jr.result hres
        rw [h1] at hc
        rw [h2] at hw
        exact ⟨hc, hw, zero_column row hc hw⟩
  refine ⟨?_, ?_, hrows, by decide, by decide, ?_, rfl⟩
  · intro ctx text s w test hacc
    exact ⟨_, by rw [answerHandler_accept ctx text s w test hacc], rfl, rfl,
      by rw [answerHandler_accept ctx text s w test hacc]⟩
  · intro cfg moment updates s w h
    exact botRun_noCounts cfg moment updates s w h
  · rw [sampleSubmission_world]
    unfold downloadAction
    have hfind : findTest sampleTakingStore.tests 1 = some sampleTest := rfl
    have hlook : lookupUsers sampleTakingStore.users [sampleSubmitted.result] 1 =
        [sampleSubmitted] := rfl
    simp only [hfind, hlook, sortByScore, List.mergeSort_singleton]
    rfl

end TestBot
